import Mathlib

/-!
Verification of the per-subset raster conversion logic of
nikokozak/satellite_drivers (src/satelite/earthview.py).

The embedding models Python values as follows:
- numeric array entries are integers (ℤ on input, ℕ < 256 after the
  uint8 coercion); numpy's astype("uint8") is the C-style narrowing
  cast, i.e. truncation toward zero followed by reduction mod 2^8;
- the two float-valued expressions of the source (the sentinel_1 ratio
  channel and the neon band averages) are embedded by their exact
  values: for nonnegative integer inputs, trunc(a / (b + 0.01) * 256)
  equals (25600 * a) / (100 * b + 1) in natural division, and
  trunc(mean xs) equals xs.sum / xs.length; bridge theorems below
  relate these integer forms to the literal rational formulas;
- JSON-ish metadata values are the inductive JVal; a Python string that
  contains JSON text denoting v is represented by JVal.jenc v, and a
  plain (non-JSON) string by JVal.jstr;
- fallible operations return Except PyError; PyError names the Python
  exception class raised by the corresponding source operation.
-/

deriving instance DecidableEq for Except

/-- Python exception classes that the code under src/satelite can raise,
as a value type. -/
inductive PyError where
  | keyError (k : String)
  | indexError
  | typeError (msg : String)
  | valueError (msg : String)
  | jsonDecodeError
  | unboundLocal (v : String)
deriving DecidableEq, Repr

/-- JSON-like Python values used in the metadata block. jenc v models a
Python string holding JSON text whose parse is v; jstr models a plain
string that is not JSON. Numbers are narrowed to integers. -/
inductive JVal where
  | jnull
  | jbool (b : Bool)
  | jnum (n : ℤ)
  | jstr (s : String)
  | jarr (xs : List JVal)
  | jobj (kvs : List (String × JVal))
  | jenc (v : JVal)

/-- Python dict lookup d[k] on a string-keyed mapping: KeyError when the
key is absent. -/
def dget {α : Type} (m : List (String × α)) (k : String) : Except PyError α :=
  match m.find? (fun p => p.1 == k) with
  | some p => .ok p.2
  | none => .error (.keyError k)

/-- Python dict assignment d[k] = v: replaces the value at an existing
key in place (keeping its position), otherwise appends the new entry.
Python dicts cannot hold duplicate keys, so replacing the first match
is exact. -/
def dset {α : Type} : List (String × α) → String → α → List (String × α)
  | [], k, v => [(k, v)]
  | (k1, v1) :: rest, k, v =>
    if k1 == k then (k, v) :: rest else (k1, v1) :: dset rest k v

/-- Python type(x) == str for the modelled values. -/
def py_isStr : JVal → Bool
  | .jstr _ => true
  | .jenc _ => true
  | _ => false

/-- json.loads: succeeds exactly on strings holding JSON text, raises
TypeError on non-strings, JSONDecodeError on non-JSON strings. -/
def json_loads : JVal → Except PyError JVal
  | .jenc v => .ok v
  | .jstr _ => .error .jsonDecodeError
  | _ => .error (.typeError "the JSON object must be str, bytes or bytearray")

/-- Python subscript m[k] on a metadata value; only mappings support it. -/
def jget (j : JVal) (k : String) : Except PyError JVal :=
  match j with
  | .jobj m => dget m k
  | _ => .error (.typeError "value is not subscriptable")

/-- Python item assignment m[k] = v on a metadata value. -/
def jset (j : JVal) (k : String) (v : JVal) : Except PyError JVal :=
  match j with
  | .jobj m => .ok (.jobj (dset m k v))
  | _ => .error (.typeError "value does not support item assignment")

/-- Python iteration over a metadata value, narrowed to JSON arrays. -/
def asJArr : JVal → Except PyError (List JVal)
  | .jarr xs => .ok xs
  | _ => .error (.typeError "value is not iterable")

/- Numeric arrays.  Raw raster fields are 4-deep nested integer lists
[revisit][channel][row][column]; after the uint8 coercion entries are
naturals below 256. -/

abbrev Z2 := List (List ℤ)
abbrev Z3 := List Z2
abbrev Z4 := List Z3
abbrev N2 := List (List ℕ)
abbrev N3 := List N2
abbrev N4 := List N3

/-- numpy astype("uint8") on an integer: reduction mod 2^8 (C narrowing,
which wraps, it does not saturate). -/
def toU8 (z : ℤ) : ℕ := (z % 256).toNat

/-- astype("uint8") applied to a value that is already uint8. -/
def u8n (n : ℕ) : ℕ := n % 256

def u8map2 (m : Z2) : N2 := m.map (fun r => r.map toU8)

def u8map3 (t : Z3) : N3 := t.map u8map2

def u8map4 (t : Z4) : N4 := t.map u8map3

def u8nMap2 (m : N2) : N2 := m.map (fun r => r.map u8n)

def u8nMap3 (t : N3) : N3 := t.map u8nMap2

/-- Indexing t[i][j][k] with 0 as the out-of-range default; used only on
rectangular arrays where every access is in range. -/
def at3 {α : Type} [Inhabited α] (t : List (List (List α))) (i j k : ℕ) : α :=
  ((t.getD i []).getD j []).getD k default

/-- Shape predicate: a 2-d array with h rows of w entries each. -/
def Rect2 {α : Type} (m : List (List α)) (h w : ℕ) : Prop :=
  m.length = h ∧ ∀ r ∈ m, r.length = w

/-- Shape predicate: a 3-d array of shape [c, h, w]. -/
def Rect3 {α : Type} (t : List (List (List α))) (c h w : ℕ) : Prop :=
  t.length = c ∧ ∀ m ∈ t, Rect2 m h w

/-- Shape predicate: a 4-d array of shape [n, c, h, w]. -/
def Rect4 {α : Type} (t : List (List (List (List α)))) (n c h w : ℕ) : Prop :=
  t.length = n ∧ ∀ m ∈ t, Rect3 m c h w

instance {α : Type} (m : List (List α)) (h w : ℕ) : Decidable (Rect2 m h w) := by
  unfold Rect2; infer_instance

instance {α : Type} (t : List (List (List α))) (c h w : ℕ) : Decidable (Rect3 t c h w) := by
  unfold Rect3; infer_instance

instance {α : Type} (t : List (List (List (List α)))) (n c h w : ℕ) : Decidable (Rect4 t n c h w) := by
  unfold Rect4; infer_instance

/-- All member lists share one length (numpy regularity at one level). -/
def sameLens {α : Type} (l : List (List α)) : Bool :=
  match l with
  | [] => true
  | x :: xs => xs.all (fun y => y.length == x.length)

/-- Rectangularity check performed by np.asarray on a 4-deep nested
list; irregular nesting raises ValueError. -/
def isRect4 (t : Z4) : Bool :=
  sameLens t && sameLens t.flatten && sameLens t.flatten.flatten

/-- np.asarray(v).astype("uint8") from the dict comprehension at
earthview.py lines 90-94. -/
def asarrayU8 (t : Z4) : Except PyError N4 :=
  if isRect4 t then .ok (u8map4 t)
  else .error (.valueError "setting an array element with a sequence")

/-- numpy transpose(1,2,0) on a [c,h,w] array: result[i][j][k] is
input[k][i][j], of shape [h,w,c]. Defined on rectangular arrays. -/
def transpose120 (t : N3) : N3 :=
  (List.range (t.getD 0 []).length).map (fun i =>
    (List.range ((t.getD 0 []).getD 0 []).length).map (fun j =>
      (List.range t.length).map (fun k => at3 t k i j)))

/-- Decoded PIL images: mode L holds a [h,w] array, mode RGB a [h,w,3]
array. -/
inductive PILImage where
  | imgL (d : N2)
  | imgRGB (d : N3)
deriving DecidableEq, Repr

/-- Image.fromarray on a 3-d uint8 array; PIL decodes a trailing axis of
3 as RGB and rejects other channel counts (nearby modes such as RGBA are
not needed by this code and are modelled as the error case). -/
def fromarray3 (d : N3) : Except PyError PILImage :=
  if d.all (fun row => row.all (fun px => px.length == 3)) then .ok (.imgRGB d)
  else .error (.typeError "Cannot handle this data type")

/-- A numpy array of rank at most 3, the possible results of squeeze. -/
inductive NpArr where
  | d0 (x : ℕ)
  | d1 (v : List ℕ)
  | d2 (m : N2)
  | d3 (t : N3)
deriving DecidableEq, Repr

/-- numpy squeeze on a rank-3 array: drops every axis of size one.
Defined on rectangular arrays (shape read off the leading entries). -/
def npSqueeze3 (t : N3) : NpArr :=
  match (t.length == 1 : Bool), ((t.getD 0 []).length == 1 : Bool),
      (((t.getD 0 []).getD 0 []).length == 1 : Bool) with
  | false, false, false => .d3 t
  | false, false, true =>
    .d2 ((List.range t.length).map (fun i =>
      (List.range (t.getD 0 []).length).map (fun j => at3 t i j 0)))
  | false, true, false =>
    .d2 ((List.range t.length).map (fun i =>
      (List.range ((t.getD 0 []).getD 0 []).length).map (fun k => at3 t i 0 k)))
  | true, false, false =>
    .d2 ((List.range (t.getD 0 []).length).map (fun j =>
      (List.range ((t.getD 0 []).getD 0 []).length).map (fun k => at3 t 0 j k)))
  | false, true, true => .d1 ((List.range t.length).map (fun i => at3 t i 0 0))
  | true, false, true => .d1 ((List.range (t.getD 0 []).length).map (fun j => at3 t 0 j 0))
  | true, true, false =>
    .d1 ((List.range ((t.getD 0 []).getD 0 []).length).map (fun k => at3 t 0 0 k))
  | true, true, true => .d0 (at3 t 0 0 0)

/-- Image.fromarray with an explicit mode argument (earthview.py line
140): mode L accepts a 2-d array, mode RGB a [h,w,3] array. -/
def fromarrayMode (a : NpArr) (mode : String) : Except PyError PILImage :=
  match a with
  | .d2 m => if mode == "L" then .ok (.imgL m) else .error (.valueError "mode mismatch")
  | .d3 t =>
    if mode == "RGB" && t.all (fun row => row.all (fun px => px.length == 3)) then
      .ok (.imgRGB t)
    else .error (.valueError "mode mismatch")
  | _ => .error (.valueError "mode mismatch")

/-- Error-propagating map over a list, evaluating left to right and
stopping at the first error, as a Python list comprehension does. -/
def exMap {α β : Type} (f : α → Except PyError β) : List α → Except PyError (List β)
  | [] => .ok []
  | x :: xs => do
    let y ← f x
    let ys ← exMap f xs
    pure (y :: ys)

/- The static subset table (earthview.py lines 13-28) and its accessors. -/

/-- Static per-subset configuration: shard count, optional dataset
configuration name, optional storage path segment. -/
structure SubsetCfg where
  shards : ℕ
  cfgName : Option String
  pathSeg : Option String
deriving DecidableEq, Repr

/-- The sets table of earthview.py lines 13-28. -/
def sets : List (String × SubsetCfg) :=
  [("satellogic", ⟨7863, none, none⟩),
   ("sentinel_1", ⟨1763, none, none⟩),
   ("neon", ⟨607, some "default", some "data"⟩),
   ("sentinel_2", ⟨19997, none, none⟩)]

/-- get_subsets (line 30). -/
def get_subsets : List String := sets.map (fun p => p.1)

/-- get_nshards (line 33): sets[subset]["shards"]; KeyError on an
unknown subset. -/
def get_nshards (subset : String) : Except PyError ℕ :=
  (dget sets subset).map (fun c => c.shards)

/-- get_path (line 36): sets[subset].get("path", subset). -/
def get_path (subset : String) : Except PyError String :=
  (dget sets subset).map (fun c => c.pathSeg.getD subset)

/-- get_config (line 39): sets[subset].get("config", subset). -/
def get_config (subset : String) : Except PyError String :=
  (dget sets subset).map (fun c => c.cfgName.getD subset)

/-- Python format spec {n:05d}: decimal, zero-padded to at least five
digits. -/
def fmt05 (n : ℕ) : String :=
  let s := toString n
  String.mk (List.replicate (5 - s.length) '0') ++ s

/-- The shard file path built by load_dataset (earthview.py lines
49-52) for one shard index; the f-strings are translated to explicit
concatenation. -/
def shardPath (subset split : String) (shard : ℕ) : Except PyError String := do
  let nshards ← get_nshards subset
  let path ← get_path subset
  if subset = "sentinel_2" then
    pure (path ++ "/sentinel_2-" ++ toString (shard / 10) ++ "/" ++ split ++ "-"
      ++ fmt05 (shard % 10) ++ "-of-00010.parquet")
  else
    pure (path ++ "/" ++ split ++ "-" ++ fmt05 shard ++ "-of-" ++ fmt05 nshards
      ++ ".parquet")

/-- The data_files list built by load_dataset (lines 46-53) when a list
of shard indices is given; the config lookup of line 43 runs first, so
an unknown subset raises KeyError before any path is built. -/
def load_dataset_data_files (subset split : String) (shards : List ℕ) :
    Except PyError (List String) := do
  let _ ← get_config subset
  exMap (shardPath subset split) shards

/- The Subset Image Normalizer: item_to_images (earthview.py lines
77-175), pure-value model. -/

/-- A field of the returned record: either a still-raw uint8 array or a
list of decoded images. -/
inductive FieldVal where
  | arr (a : N4)
  | imgs (l : List PILImage)
deriving DecidableEq, Repr

/-- An input record: raster fields (every key other than "metadata")
plus the metadata value, which may be a JSON string or a mapping. -/
structure Item where
  rasters : List (String × Z4)
  metadata : JVal

/-- The record returned by item_to_images. -/
structure ItemOut where
  fields : List (String × FieldVal)
  metadata : JVal

/-- Lines 86-88: parse the metadata block when it arrives as a string. -/
def parseMeta (j : JVal) : Except PyError JVal :=
  if py_isStr j then json_loads j else .ok j

/-- All raster fields kept as arrays, before any branch rewrites them. -/
def toArrFields (fields : List (String × N4)) : List (String × FieldVal) :=
  fields.map (fun kv => (kv.1, FieldVal.arr kv.2))

/-- image[0,:,:]: the first channel plane; IndexError when the channel
axis is empty. -/
def firstChannel (t : N3) : Except PyError N2 :=
  match t with
  | [] => .error .indexError
  | c :: _ => .ok c

/-- The satellogic branch (lines 97-113): rgb revisits transposed to
[h,w,3] and decoded RGB, 1m revisits reduced to their first channel and
decoded mode L; count is the number of 1m revisits. -/
def procSatellogic (fields : List (String × N4)) :
    Except PyError (List (String × FieldVal) × ℕ) := do
  let rgbArr ← dget fields "rgb"
  let rgbs ← exMap (fun rgb => fromarray3 (transpose120 rgb)) rgbArr
  let oneArr ← dget fields "1m"
  let ones ← exMap (fun image => (firstChannel image).map PILImage.imgL) oneArr
  let f1 := dset (toArrFields fields) "rgb" (.imgs rgbs)
  let f2 := dset f1 "1m" (.imgs ones)
  pure (f2, ones.length)

/-- Exact value of one entry of the synthetic sentinel_1 channel,
trunc(a / (b + 0.01) * 256) reduced mod 2^8 by astype("uint8")
(line 121-123); for naturals a b this equals
(25600 * a) / (100 * b + 1) % 256, see ratioVal_eq_floor below. -/
def ratioVal (a b : ℕ) : ℕ := ((25600 * a) / (100 * b + 1)) % 256

/-- The per-revisit synthetic channel i10m[:,0,:,:]/(i10m[:,1,:,:]+0.01)*256
cast to uint8; IndexError when a revisit has fewer than two channels. -/
def ratioChannel (rev : N3) : Except PyError N2 :=
  match rev with
  | c0 :: c1 :: _ =>
    .ok (List.zipWith (fun r0 r1 => List.zipWith (fun a b => ratioVal a b) r0 r1) c0 c1)
  | _ => .error .indexError

/-- The sentinel_1 branch (lines 114-131): append the synthetic third
channel to each revisit, transpose to [h,w,3], decode RGB; count is the
number of 10m revisits. -/
def procSentinel1 (fields : List (String × N4)) :
    Except PyError (List (String × FieldVal) × ℕ) := do
  let i10m ← dget fields "10m"
  let i10m2 ← exMap (fun rev => (ratioChannel rev).map (fun r => rev ++ [r])) i10m
  let imgs ← exMap (fun rev => fromarray3 (transpose120 rev)) i10m2
  pure (dset (toArrFields fields) "10m" (.imgs imgs), imgs.length)

/-- Decode mode chosen at line 139: single channel for 10m and scl, RGB
otherwise. -/
def s2Mode (channel : String) : String :=
  if channel = "10m" ∨ channel = "scl" then "L" else "RGB"

/-- Fancy index data[:,:,:,[0,2,4]] at line 138: keep channels 0, 2 and
4 of the trailing axis; IndexError when fewer than five channels. -/
def sel024 (t : N4) : Except PyError N4 :=
  if t.all (fun rev => rev.all (fun row => row.all (fun px => 4 < px.length))) then
    .ok (t.map (fun rev => rev.map (fun row =>
      row.map (fun px => [px.getD 0 0, px.getD 2 0, px.getD 4 0]))))
  else .error .indexError

/-- One channel of the sentinel_2 loop body (lines 134-141): re-coerce
to uint8, transpose each revisit from [c,h,w] to [h,w,c], select
channels 0,2,4 for the 20m band, squeeze and decode each revisit. -/
def procS2Channel (channel : String) (data : N4) : Except PyError (List PILImage) := do
  let t := data.map (fun rev => transpose120 (u8nMap3 rev))
  let t2 ← if channel = "20m" then sel024 t else pure t
  exMap (fun rev => fromarrayMode (npSqueeze3 rev) (s2Mode channel)) t2

/-- The sentinel_2 branch (lines 132-141): process the four channels in
order; count is reassigned each iteration, so its final value is the
number of scl revisits. -/
def procSentinel2 (fields : List (String × N4)) :
    Except PyError (List (String × FieldVal) × ℕ) := do
  let d10 ← dget fields "10m"
  let i10 ← procS2Channel "10m" d10
  let d20 ← dget fields "20m"
  let i20 ← procS2Channel "20m" d20
  let drgb ← dget fields "rgb"
  let irgb ← procS2Channel "rgb" drgb
  let dscl ← dget fields "scl"
  let iscl ← procS2Channel "scl" dscl
  let f1 := dset (toArrFields fields) "10m" (.imgs i10)
  let f2 := dset f1 "20m" (.imgs i20)
  let f3 := dset f2 "rgb" (.imgs irgb)
  let f4 := dset f3 "scl" (.imgs iscl)
  pure (f4, dscl.length)

/-- Exact uint8 value of one pixel of a neon averaged band group:
astype("uint8") of the float mean, which for naturals is
xs.sum / xs.length reduced mod 2^8, see avgU8_eq_floor below. -/
def avgU8 (xs : List ℕ) : ℕ := (xs.sum / xs.length) % 256

/-- The mean over the band axis at pixel (i, j) of a band group. -/
def bandAvgAt (g : N3) (i j : ℕ) : ℕ := avgU8 (g.map (fun m => (m.getD i []).getD j 0))

/-- The neon 1m pseudo-RGB conversion (lines 156-164): average the band
groups image[:124], image[124:247], image[247:] along the band axis,
stack the three channels along a new trailing axis, cast to uint8. -/
def neonPseudoRGB (image : N3) : N3 :=
  (List.range (image.getD 0 []).length).map (fun i =>
    (List.range ((image.getD 0 []).getD 0 []).length).map (fun j =>
      [bandAvgAt (image.take 124) i j,
       bandAvgAt ((image.drop 124).take 123) i j,
       bandAvgAt (image.drop 247) i j]))

/-- The neon branch (lines 144-165): rgb decoded like satellogic, chm
reduced to channel 0, 1m converted to pseudo-RGB; count is the number
of rgb revisits. -/
def procNeon (fields : List (String × N4)) :
    Except PyError (List (String × FieldVal) × ℕ) := do
  let rgbArr ← dget fields "rgb"
  let rgbs ← exMap (fun image => fromarray3 (transpose120 image)) rgbArr
  let chmArr ← dget fields "chm"
  let chms ← exMap (fun image => (firstChannel image).map PILImage.imgL) chmArr
  let oneArr ← dget fields "1m"
  let ones ← exMap (fun image => fromarray3 (neonPseudoRGB image)) oneArr
  let f1 := dset (toArrFields fields) "rgb" (.imgs rgbs)
  let f2 := dset f1 "chm" (.imgs chms)
  let f3 := dset f2 "1m" (.imgs ones)
  pure (f3, rgbArr.length)

/-- The bounds pair swap of line 169:
[bounds[i+1-l] for i in range(0, len(bounds), 2) for l in range(2)].
On an odd-length list the final pair reads one element past the end,
an IndexError. -/
def swapPairs : List JVal → Except PyError (List JVal)
  | [] => .ok []
  | [_] => .error .indexError
  | a :: b :: rest => do
    let tl ← swapPairs rest
    pure (b :: a :: tl)

/-- The nested metadata re-parse of lines 142-143: each listed field
must map to a list of JSON strings, each replaced by its parse. -/
def parseMetaFields : List String → JVal → Except PyError JVal
  | [], m => .ok m
  | f :: fs, m => do
    let v ← jget m f
    let xs ← asJArr v
    let ys ← exMap json_loads xs
    let m2 ← jset m f (.jarr ys)
    parseMetaFields fs m2

/-- All writes the source performs on the metadata mapping after the
raster work of a successful branch: the sentinel_2 nested re-parse
(lines 142-143), the neon bounds swap and CRS fix (lines 166-172), and
metadata["count"] = count (line 174). -/
def metaUpdate (subset : String) (count : ℕ) (meta : JVal) : Except PyError JVal := do
  let meta2 ←
    if subset = "sentinel_2" then
      parseMetaFields ["solarAngles", "tileGeometry", "viewIncidenceAngles"] meta
    else if subset = "neon" then do
      let b ← jget meta "bounds"
      let xs ← asJArr b
      let ys ← swapPairs xs
      let m1 ← jset meta "bounds" (.jarr ys)
      jset m1 "epsg" (.jstr "EPSG:4326")
    else pure meta
  jset meta2 "count" (.jnum (count : ℤ))

/-- The elif chain of lines 97-173 selecting the subset branch; for a
subset outside the four known names every branch is skipped, so line
174 reads the never-assigned local count, an UnboundLocalError. -/
def dispatchBranch (subset : String) (fields : List (String × N4)) :
    Except PyError (List (String × FieldVal) × ℕ) :=
  if subset = "satellogic" then procSatellogic fields
  else if subset = "sentinel_1" then procSentinel1 fields
  else if subset = "sentinel_2" then procSentinel2 fields
  else if subset = "neon" then procNeon fields
  else .error (.unboundLocal "count")

/-- item_to_images (earthview.py lines 77-175) as a pure function on
record values. -/
def item_to_images (subset : String) (item : Item) : Except PyError ItemOut := do
  let metadata ← parseMeta item.metadata
  let fields ← exMap (fun kv => (asarrayU8 kv.2).map (fun a => (kv.1, a))) item.rasters
  let bc ← dispatchBranch subset fields
  let metadata2 ← metaUpdate subset bc.2 metadata
  pure ⟨bc.1, metadata2⟩

/- Object-identity model for the metadata mapping: the same function,
tracking whether the caller's metadata object is written through. -/

/-- How the metadata arrives: as a string value (json.loads then builds
a fresh object the caller does not hold), or as a reference to a shared
mapping stored at an address. -/
inductive MetaV where
  | strv (s : JVal)
  | ref (a : ℕ)

/-- An input record whose metadata is given by reference into a store. -/
structure ItemRef where
  rasters : List (String × Z4)
  metaRef : MetaV

/-- item_to_images over a store of metadata objects. Every metadata
write of the source goes through item["metadata"], which is the very
object the caller passed in when it arrived as a mapping (line 86 reads
it, line 95 stores the same reference back); so on success the object
at the caller's address holds the updated mapping. -/
def item_to_images_ref (subset : String) (store : List JVal) (it : ItemRef) :
    Except PyError (List JVal × ItemOut) := do
  let metaIn := match it.metaRef with
    | .strv s => s
    | .ref a => store.getD a .jnull
  let metadata ← parseMeta metaIn
  let fields ← exMap (fun kv => (asarrayU8 kv.2).map (fun a => (kv.1, a))) it.rasters
  let bc ← dispatchBranch subset fields
  let metadata2 ← metaUpdate subset bc.2 metadata
  let store2 := match it.metaRef with
    | .strv _ => store
    | .ref a => store.set a metadata2
  pure (store2, ⟨bc.1, metadata2⟩)

/- Helper forms used to state the run lemmas and claims. -/

/-- The parse of an already-encoded JSON string, as a total function. -/
def junwrap : JVal → JVal
  | .jenc v => v
  | v => v

/-- The synthetic sentinel_1 channel of a revisit with channel planes
c0, c1 as a total function (used when the revisit has two channels). -/
def ratioOf (rev : N3) : N2 :=
  List.zipWith (fun r0 r1 => List.zipWith (fun a b => ratioVal a b) r0 r1)
    (rev.getD 0 []) (rev.getD 1 [])

/-- Channel selection {0,2,4} on one [h,w,c] revisit, as a total
function (used when every pixel has at least five channels). -/
def pick024 (t : N3) : N3 :=
  t.map (fun row => row.map (fun px => [px.getD 0 0, px.getD 2 0, px.getD 4 0]))

/-- The claimed bounds permutation: each consecutive pair swapped. -/
def swapPairsSpec : List JVal → List JVal
  | a :: b :: rest => b :: a :: swapPairsSpec rest
  | l => l

/-- Rational value of one entry of the sentinel_1 synthetic channel as
written in the source: channel0 / (channel1 + 0.01) * 256. -/
def ratioValQ (a b : ℕ) : ℚ := (a : ℚ) / ((b : ℚ) + 1 / 100) * 256

/-- The integer form used in the pipeline is exactly the truncation of
the source's formula reduced mod 2^8; for nonnegative operands
truncation toward zero is the floor. -/
theorem ratioVal_eq_floor (a b : ℕ) : (ratioVal a b : ℤ) = ⌊ratioValQ a b⌋ % 256 := by
  have h1 : ratioValQ a b = (((25600 * a : ℕ) : ℤ) : ℚ) / ((100 * b + 1 : ℕ) : ℚ) := by
    unfold ratioValQ
    have hpos : ((100 * b + 1 : ℕ) : ℚ) ≠ 0 := by positivity
    field_simp
    ring
  rw [h1, Rat.floor_intCast_div_natCast]
  unfold ratioVal
  push_cast [Int.ofNat_ediv]
  ring

/-- Rational mean of a list of naturals, as np.average computes it. -/
def avgQ (xs : List ℕ) : ℚ := ((xs.sum : ℕ) : ℚ) / (xs.length : ℚ)

/-- The integer mean used in the pipeline is the truncation of the
float mean reduced mod 2^8 by astype("uint8"). -/
theorem avgU8_eq_floor (xs : List ℕ) : (avgU8 xs : ℤ) = ⌊avgQ xs⌋ % 256 := by
  unfold avgU8 avgQ
  rw [show ((xs.sum : ℕ) : ℚ) = (((xs.sum : ℕ) : ℤ) : ℚ) by rw [Int.cast_natCast]]
  rw [Rat.floor_intCast_div_natCast]
  push_cast [Int.ofNat_ediv]
  ring

/- Basic lemmas about the dictionary and traversal helpers. -/

theorem exMap_eq_ok_of {α β : Type} (f : α → Except PyError β) (g : α → β)
    (xs : List α) (h : ∀ x ∈ xs, f x = .ok (g x)) : exMap f xs = .ok (xs.map g) := by
  induction xs with
  | nil => rfl
  | cons x xs ih =>
    have hx := h x (by simp)
    have ht := ih (fun y hy => h y (by simp [hy]))
    simp [exMap, hx, ht, bind, Except.bind, pure, Except.pure, List.map_cons]

theorem dget_map_val {α β : Type} (g : α → β) (l : List (String × α)) (k : String) :
    dget (l.map (fun kv => (kv.1, g kv.2))) k = (dget l k).map g := by
  induction l with
  | nil => rfl
  | cons kv l ih =>
    unfold dget
    by_cases hk : (kv.1 == k) = true
    · rw [List.map_cons,
        @List.find?_cons_of_pos _ (fun p => p.1 == k) ((kv.1, g kv.2)) _ (by simpa using hk),
        @List.find?_cons_of_pos _ (fun p => p.1 == k) kv _ hk]
      simp [Except.map]
    · rw [List.map_cons,
        @List.find?_cons_of_neg _ (fun p => p.1 == k) ((kv.1, g kv.2)) _ (by simpa using hk),
        @List.find?_cons_of_neg _ (fun p => p.1 == k) kv _ (by simpa using hk)]
      exact ih

theorem dget_dset_self {α : Type} (m : List (String × α)) (k : String) (v : α) :
    dget (dset m k v) k = .ok v := by
  induction m with
  | nil => simp [dset, dget, List.find?]
  | cons kv m ih =>
    by_cases hk : (kv.1 == k) = true
    · simp [dset, hk, dget, List.find?]
    · simp only [dset, hk, Bool.false_eq_true, if_false]
      unfold dget
      rw [@List.find?_cons_of_neg _ (fun p => p.1 == k) ((kv.1, kv.2)) _ (by simpa using hk)]
      exact ih

theorem dget_dset_ne {α : Type} (m : List (String × α)) (k k2 : String) (v : α)
    (hne : k ≠ k2) : dget (dset m k v) k2 = dget m k2 := by
  induction m with
  | nil => simp [dset, dget, List.find?, show (k == k2) = false by simpa using hne]
  | cons kv m ih =>
    by_cases hk : (kv.1 == k) = true
    · have h1 : kv.1 = k := by simpa using hk
      simp [dset, hk, dget, List.find?, show (k == k2) = false by simpa using hne, h1]
    · simp only [dset, hk, Bool.false_eq_true, if_false]
      by_cases hk2 : (kv.1 == k2) = true
      · unfold dget
        rw [@List.find?_cons_of_pos _ (fun p => p.1 == k2) ((kv.1, kv.2)) _ hk2,
          @List.find?_cons_of_pos _ (fun p => p.1 == k2) kv _ hk2]
      · unfold dget
        rw [@List.find?_cons_of_neg _ (fun p => p.1 == k2) ((kv.1, kv.2)) _ (by simpa using hk2),
          @List.find?_cons_of_neg _ (fun p => p.1 == k2) kv _ (by simpa using hk2)]
        exact ih

theorem dset_dset_same {α : Type} (m : List (String × α)) (k : String) (v w : α) :
    dset (dset m k v) k w = dset m k w := by
  induction m with
  | nil => simp [dset]
  | cons kv m ih =>
    by_cases hk : kv.1 == k
    · simp [dset, hk]
    · simp [dset, hk, ih]

theorem rangeMap_getD {α : Type} (d : α) (f : ℕ → α) (n i : ℕ) (h : i < n) :
    ((List.range n).map f).getD i d = f i := by
  simp [List.getD_eq_getElem?_getD, List.getElem?_map, List.getElem?_range h]

/- Shape lemmas. -/

theorem rect2_getD_len {α : Type} {m : List (List α)} {h w i : ℕ}
    (hr : Rect2 m h w) (hi : i < h) : (m.getD i []).length = w := by
  obtain ⟨hl, hall⟩ := hr
  have hi2 : i < m.length := by omega
  rw [List.getD_eq_getElem?_getD, List.getElem?_eq_getElem hi2]
  exact hall _ (List.getElem_mem hi2)

theorem rect3_getD_dims {α : Type} {t : List (List (List α))} {c h w : ℕ}
    (hr : Rect3 t c h w) (hc : 0 < c) : (t.getD 0 []).length = h := by
  obtain ⟨hl, hall⟩ := hr
  have h0 : (0 : ℕ) < t.length := by omega
  rw [List.getD_eq_getElem?_getD, List.getElem?_eq_getElem h0]
  exact (hall _ (List.getElem_mem h0)).1

theorem rect3_getD_mem {α : Type} {t : List (List (List α))} {c h w : ℕ}
    (hr : Rect3 t c h w) (hc : 0 < c) : Rect2 (t.getD 0 []) h w := by
  have h0 : (0 : ℕ) < t.length := by rw [hr.1]; exact hc
  have hmem : t.getD 0 [] ∈ t := by
    rw [List.getD_eq_getElem?_getD, List.getElem?_eq_getElem h0]
    exact List.getElem_mem h0
  exact hr.2 _ hmem

theorem rect3_getD2_dims {α : Type} {t : List (List (List α))} {c h w : ℕ}
    (hr : Rect3 t c h w) (hc : 0 < c) (hh : 0 < h) :
    ((t.getD 0 []).getD 0 []).length = w :=
  rect2_getD_len (rect3_getD_mem hr hc) hh

theorem transpose120_rect {t : N3} {c h w : ℕ} (hr : Rect3 t c h w) (hc : 0 < c) :
    Rect3 (transpose120 t) h w c := by
  rcases Nat.eq_zero_or_pos h with h0 | hpos
  · subst h0
    have hd1 : (t.getD 0 []).length = 0 := rect3_getD_dims hr hc
    unfold transpose120
    rw [hd1]
    exact ⟨rfl, by simp⟩
  · have hd1 : (t.getD 0 []).length = h := rect3_getD_dims hr hc
    have hd2 : ((t.getD 0 []).getD 0 []).length = w := rect3_getD2_dims hr hc hpos
    unfold transpose120
    rw [hd1, hd2]
    refine ⟨by simp, ?_⟩
    intro m hm
    obtain ⟨i, hi, rfl⟩ := List.mem_map.mp hm
    refine ⟨by simp, ?_⟩
    intro r hrr
    obtain ⟨j, hj, rfl⟩ := List.mem_map.mp hrr
    simp [hr.1]

theorem at3_transpose120 {t : N3} {c h w i j k : ℕ} (hr : Rect3 t c h w) (hc : 0 < c)
    (hi : i < h) (hj : j < w) (hk : k < c) :
    at3 (transpose120 t) i j k = at3 t k i j := by
  have hd1 : (t.getD 0 []).length = h := rect3_getD_dims hr hc
  have hd2 : ((t.getD 0 []).getD 0 []).length = w :=
    rect3_getD2_dims hr hc (by omega)
  have hk2 : k < t.length := by rw [hr.1]; exact hk
  show (((transpose120 t).getD i []).getD j []).getD k default = at3 t k i j
  unfold transpose120
  rw [hd1, hd2, rangeMap_getD _ _ _ _ hi, rangeMap_getD _ _ _ _ hj,
    rangeMap_getD _ _ _ _ hk2]

theorem rect2_u8map2 {m : Z2} {h w : ℕ} (hr : Rect2 m h w) : Rect2 (u8map2 m) h w := by
  refine ⟨by simp [u8map2, hr.1], ?_⟩
  intro r hrr
  obtain ⟨r0, hr0, rfl⟩ := List.mem_map.mp hrr
  simp [hr.2 r0 hr0]

theorem rect3_u8map3 {t : Z3} {c h w : ℕ} (hr : Rect3 t c h w) : Rect3 (u8map3 t) c h w := by
  refine ⟨by simp [u8map3, hr.1], ?_⟩
  intro m hm
  obtain ⟨m0, hm0, rfl⟩ := List.mem_map.mp hm
  exact rect2_u8map2 (hr.2 m0 hm0)

theorem rect4_u8map4 {t : Z4} {n c h w : ℕ} (hr : Rect4 t n c h w) :
    Rect4 (u8map4 t) n c h w := by
  refine ⟨by simp [u8map4, hr.1], ?_⟩
  intro m hm
  obtain ⟨m0, hm0, rfl⟩ := List.mem_map.mp hm
  exact rect3_u8map3 (hr.2 m0 hm0)

theorem rect3_pick024 {t : N3} {h w c : ℕ} (hr : Rect3 t h w c) :
    Rect3 (pick024 t) h w 3 := by
  refine ⟨by simp [pick024, hr.1], ?_⟩
  intro m hm
  obtain ⟨m0, hm0, rfl⟩ := List.mem_map.mp hm
  refine ⟨by simp [(hr.2 m0 hm0).1], ?_⟩
  intro r hrr
  obtain ⟨r0, hr0, rfl⟩ := List.mem_map.mp hrr
  rfl

theorem sameLens_of_all_len {α : Type} {l : List (List α)} {n : ℕ}
    (h : ∀ x ∈ l, x.length = n) : sameLens l = true := by
  cases l with
  | nil => rfl
  | cons x xs =>
    unfold sameLens
    rw [List.all_eq_true]
    intro y hy
    have h1 : y.length = n := h y (by simp [hy])
    have h2 : x.length = n := h x (by simp)
    simp [h1, h2]

theorem asarrayU8_ok {t : Z4} {n c h w : ℕ} (hr : Rect4 t n c h w) :
    asarrayU8 t = .ok (u8map4 t) := by
  have h1 : sameLens t = true := sameLens_of_all_len (fun x hx => (hr.2 x hx).1)
  have h2 : sameLens t.flatten = true := by
    refine @sameLens_of_all_len _ _ h (fun m hm => ?_)
    obtain ⟨r, hrm, hmr⟩ := List.mem_flatten.mp hm
    exact ((hr.2 r hrm).2 m hmr).1
  have h3 : sameLens t.flatten.flatten = true := by
    refine @sameLens_of_all_len _ _ w (fun row hrow => ?_)
    obtain ⟨m, hmf, hrowm⟩ := List.mem_flatten.mp hrow
    obtain ⟨r, hrm, hmr⟩ := List.mem_flatten.mp hmf
    exact ((hr.2 r hrm).2 m hmr).2 row hrowm
  simp [asarrayU8, isRect4, h1, h2, h3]

theorem toU8_lt (z : ℤ) : toU8 z < 256 := by
  unfold toU8
  have h1 : z % 256 < 256 := Int.emod_lt_of_pos z (by norm_num)
  have h0 : 0 ≤ z % 256 := Int.emod_nonneg z (by norm_num)
  omega

theorem u8n_toU8 (z : ℤ) : u8n (toU8 z) = toU8 z := Nat.mod_eq_of_lt (toU8_lt z)

theorem u8nMap3_u8map3 (t : Z3) : u8nMap3 (u8map3 t) = u8map3 t := by
  unfold u8nMap3 u8map3 u8nMap2 u8map2
  rw [List.map_map]
  refine List.map_congr_left (fun m _ => ?_)
  simp only [Function.comp_apply, List.map_map]
  exact List.map_congr_left (fun z _ => by simp [Function.comp_apply, u8n_toU8])

theorem fromarray3_ok {d : N3} {h w : ℕ} (hr : Rect3 d h w 3) :
    fromarray3 d = .ok (.imgRGB d) := by
  have hall : d.all (fun row => row.all (fun px => px.length == 3)) = true := by
    rw [List.all_eq_true]
    intro row hrow
    rw [List.all_eq_true]
    intro px hpx
    simp [(hr.2 row hrow).2 px hpx]
  simp [fromarray3, hall]

theorem fromarray3_neonPseudoRGB (im : N3) :
    fromarray3 (neonPseudoRGB im) = .ok (.imgRGB (neonPseudoRGB im)) := by
  have hall : (neonPseudoRGB im).all (fun row => row.all (fun px => px.length == 3)) = true := by
    rw [List.all_eq_true]
    intro row hrow
    rw [List.all_eq_true]
    intro px hpx
    unfold neonPseudoRGB at hrow
    obtain ⟨i, hi, rfl⟩ := List.mem_map.mp hrow
    obtain ⟨j, hj, rfl⟩ := List.mem_map.mp hpx
    rfl
  simp [fromarray3, hall]

theorem npSqueeze3_d3 {t : N3} {a b c : ℕ} (hr : Rect3 t a b c)
    (ha : 2 ≤ a) (hb : 2 ≤ b) (hc : 2 ≤ c) : npSqueeze3 t = .d3 t := by
  have h1 : t.length = a := hr.1
  have h2 : (t.getD 0 []).length = b := rect3_getD_dims hr (by omega)
  have h3 : ((t.getD 0 []).getD 0 []).length = c := rect3_getD2_dims hr (by omega) (by omega)
  have ea : (a == 1) = false := by simp only [beq_eq_false_iff_ne, ne_eq]; omega
  have eb : (b == 1) = false := by simp only [beq_eq_false_iff_ne, ne_eq]; omega
  have ec : (c == 1) = false := by simp only [beq_eq_false_iff_ne, ne_eq]; omega
  unfold npSqueeze3
  rw [h1, h2, h3, ea, eb, ec]

theorem npSqueeze3_c1 {t : N3} {a b : ℕ} (hr : Rect3 t a b 1)
    (ha : 2 ≤ a) (hb : 2 ≤ b) :
    npSqueeze3 t = .d2 ((List.range a).map (fun i =>
      (List.range b).map (fun j => at3 t i j 0))) := by
  have h1 : t.length = a := hr.1
  have h2 : (t.getD 0 []).length = b := rect3_getD_dims hr (by omega)
  have h3 : ((t.getD 0 []).getD 0 []).length = 1 := rect3_getD2_dims hr (by omega) (by omega)
  have ea : (a == 1) = false := by simp only [beq_eq_false_iff_ne, ne_eq]; omega
  have eb : (b == 1) = false := by simp only [beq_eq_false_iff_ne, ne_eq]; omega
  unfold npSqueeze3
  rw [h1, h2, h3, ea, eb]
  rfl

theorem sel024_ok {t : N4} {h w c : ℕ} (hall : ∀ rev ∈ t, Rect3 rev h w c)
    (hc : 5 ≤ c) : sel024 t = .ok (t.map pick024) := by
  have hcheck : t.all (fun rev => rev.all (fun row => row.all (fun px => 4 < px.length))) = true := by
    rw [List.all_eq_true]
    intro rev hrev
    rw [List.all_eq_true]
    intro row hrow
    rw [List.all_eq_true]
    intro px hpx
    have := ((hall rev hrev).2 row hrow).2 px hpx
    simp [this]
    omega
  simp [sel024, hcheck, pick024]

/- Evaluation lemmas: explicit results of item_to_images on well-shaped
records, one per subset. -/

theorem swapPairs_even : ∀ (l : List JVal), l.length % 2 = 0 →
    swapPairs l = .ok (swapPairsSpec l)
  | [], _ => rfl
  | [_], h => by simp at h
  | _ :: _ :: rest, h => by
    have ih := swapPairs_even rest (by simp [List.length_cons] at h; omega)
    simp [swapPairs, swapPairsSpec, ih, bind, Except.bind, pure, Except.pure]

theorem coerce_fields_ok (rs : List (String × Z4))
    (hall : ∀ kv ∈ rs, isRect4 kv.2 = true) :
    exMap (fun kv => (asarrayU8 kv.2).map (fun a => (kv.1, a))) rs
      = .ok (rs.map (fun kv => (kv.1, u8map4 kv.2))) := by
  refine exMap_eq_ok_of _ (fun kv => (kv.1, u8map4 kv.2)) rs (fun kv hkv => ?_)
  simp [asarrayU8, hall kv hkv, Except.map]

theorem run_satellogic (rs : List (String × Z4)) (meta : JVal) (m : List (String × JVal))
    (rgb one : Z4) (n1 h1 w1 n2 c2 h2 w2 : ℕ)
    (hm : parseMeta meta = .ok (.jobj m))
    (hall : ∀ kv ∈ rs, isRect4 kv.2 = true)
    (hrgb : dget rs "rgb" = .ok rgb) (hrgbR : Rect4 rgb n1 3 h1 w1)
    (hone : dget rs "1m" = .ok one) (honeR : Rect4 one n2 c2 h2 w2) (hc2 : 1 ≤ c2) :
    item_to_images "satellogic" ⟨rs, meta⟩ = .ok
      ⟨dset (dset (toArrFields (rs.map (fun kv => (kv.1, u8map4 kv.2)))) "rgb"
          (.imgs ((u8map4 rgb).map (fun r => .imgRGB (transpose120 r)))))
        "1m" (.imgs ((u8map4 one).map (fun im => .imgL (im.getD 0 [])))),
       .jobj (dset m "count" (.jnum (one.length : ℤ)))⟩ := by
  have hfields := coerce_fields_ok rs hall
  have hfr : dget (rs.map (fun kv => (kv.1, u8map4 kv.2))) "rgb" = .ok (u8map4 rgb) := by
    rw [dget_map_val, hrgb]; rfl
  have hfo : dget (rs.map (fun kv => (kv.1, u8map4 kv.2))) "1m" = .ok (u8map4 one) := by
    rw [dget_map_val, hone]; rfl
  have hrgbs : exMap (fun r => fromarray3 (transpose120 r)) (u8map4 rgb)
      = .ok ((u8map4 rgb).map (fun r => .imgRGB (transpose120 r))) := by
    refine exMap_eq_ok_of _ _ _ (fun r hr2 => ?_)
    have hr3 : Rect3 r 3 h1 w1 := (rect4_u8map4 hrgbR).2 r hr2
    exact fromarray3_ok (transpose120_rect hr3 (by omega))
  have hones : exMap (fun im => (firstChannel im).map PILImage.imgL) (u8map4 one)
      = .ok ((u8map4 one).map (fun im => .imgL (im.getD 0 []))) := by
    refine exMap_eq_ok_of _ _ _ (fun im him => ?_)
    have hr3 : Rect3 im c2 h2 w2 := (rect4_u8map4 honeR).2 im him
    cases im with
    | nil => exact absurd hr3.1 (by simp; omega)
    | cons x xs => simp [firstChannel, Except.map]
  have hlen : ((u8map4 one).map (fun im => PILImage.imgL (im.getD 0 []))).length
      = one.length := by simp [u8map4]
  simp only [item_to_images, dispatchBranch, hm, hfields, procSatellogic, hfr, hfo,
    hrgbs, hones, metaUpdate, jset, bind, Except.bind, pure, Except.pure, hlen]
  simp [jset]

theorem ratioChannel_ok {rev : N3} {c h w : ℕ} (hr : Rect3 rev c h w) (hc : 2 ≤ c) :
    ratioChannel rev = .ok (ratioOf rev) := by
  cases rev with
  | nil => exact absurd hr.1 (by simp; omega)
  | cons c0 rest =>
    cases rest with
    | nil => exact absurd hr.1 (by simp; omega)
    | cons c1 rest2 => simp [ratioChannel, ratioOf]

theorem rect3_append_ratio {rev : N3} {c h w : ℕ} (hr : Rect3 rev c h w) (hc : c = 2) :
    Rect3 (rev ++ [ratioOf rev]) 3 h w := by
  subst hc
  constructor
  · simp [hr.1]
  · intro m hm
    rcases List.mem_append.mp hm with hm1 | hm2
    · exact hr.2 m hm1
    · have hm3 : m = ratioOf rev := by simpa using hm2
      subst hm3
      have h0 : Rect2 (rev.getD 0 []) h w := rect3_getD_mem hr (by omega)
      have h1mem : rev.getD 1 [] ∈ rev := by
        have hlen : 1 < rev.length := by rw [hr.1]; omega
        rw [List.getD_eq_getElem?_getD, List.getElem?_eq_getElem hlen]
        exact List.getElem_mem hlen
      have h1 : Rect2 (rev.getD 1 []) h w := hr.2 _ h1mem
      constructor
      · have e0 := h0.1
        have e1 := h1.1
        rw [List.getD_eq_getElem?_getD] at e0 e1
        simp [ratioOf, e0, e1]
      · intro r hrr
        unfold ratioOf at hrr
        rw [List.mem_iff_getElem] at hrr
        obtain ⟨i, hi, rfl⟩ := hrr
        rw [List.getElem_zipWith]
        simp only [List.length_zipWith] at hi
        rw [List.length_zipWith]
        have hr0 : (rev.getD 0 [])[i].length = w := by
          apply h0.2
          exact List.getElem_mem _
        have hr1 : (rev.getD 1 [])[i].length = w := by
          apply h1.2
          exact List.getElem_mem _
        rw [hr0, hr1]
        omega

theorem run_sentinel1 (rs : List (String × Z4)) (meta : JVal) (m : List (String × JVal))
    (d : Z4) (n h w : ℕ)
    (hm : parseMeta meta = .ok (.jobj m))
    (hall : ∀ kv ∈ rs, isRect4 kv.2 = true)
    (hd : dget rs "10m" = .ok d) (hdR : Rect4 d n 2 h w) :
    item_to_images "sentinel_1" ⟨rs, meta⟩ = .ok
      ⟨dset (toArrFields (rs.map (fun kv => (kv.1, u8map4 kv.2)))) "10m"
          (.imgs ((u8map4 d).map (fun rev => .imgRGB (transpose120 (rev ++ [ratioOf rev]))))),
       .jobj (dset m "count" (.jnum (d.length : ℤ)))⟩ := by
  have hfields := coerce_fields_ok rs hall
  have hf10 : dget (rs.map (fun kv => (kv.1, u8map4 kv.2))) "10m" = .ok (u8map4 d) := by
    rw [dget_map_val, hd]; rfl
  have hstep1 : exMap (fun rev => (ratioChannel rev).map (fun r => rev ++ [r])) (u8map4 d)
      = .ok ((u8map4 d).map (fun rev => rev ++ [ratioOf rev])) := by
    refine exMap_eq_ok_of _ _ _ (fun rev hrev => ?_)
    have hr3 : Rect3 rev 2 h w := (rect4_u8map4 hdR).2 rev hrev
    rw [ratioChannel_ok hr3 (by omega)]
    rfl
  have hstep2 : exMap (fun rev => fromarray3 (transpose120 rev))
      ((u8map4 d).map (fun rev => rev ++ [ratioOf rev]))
      = .ok (((u8map4 d).map (fun rev => rev ++ [ratioOf rev])).map
          (fun rev2 => .imgRGB (transpose120 rev2))) := by
    refine exMap_eq_ok_of _ _ _ (fun rev2 hrev2 => ?_)
    obtain ⟨rev, hrev, rfl⟩ := List.mem_map.mp hrev2
    have hr3 : Rect3 rev 2 h w := (rect4_u8map4 hdR).2 rev hrev
    exact fromarray3_ok (transpose120_rect (rect3_append_ratio hr3 rfl) (by omega))
  have hlen : (((u8map4 d).map (fun rev => rev ++ [ratioOf rev])).map
      (fun rev2 => PILImage.imgRGB (transpose120 rev2))).length = d.length := by
    simp [u8map4]
  simp only [item_to_images, dispatchBranch, hm, hfields, procSentinel1, hf10,
    hstep1, hstep2, metaUpdate, jset, bind, Except.bind, pure, Except.pure, hlen]
  simp [jset, List.map_map, Function.comp_def]

/-- The 2-d array produced by squeezing a [h,w,1] revisit. -/
def sqHW (t : N3) (h w : ℕ) : N2 :=
  (List.range h).map (fun i => (List.range w).map (fun j => at3 t i j 0))

theorem fromarrayMode_rgb_ok {t : N3} {h w : ℕ} (hr : Rect3 t h w 3) :
    fromarrayMode (.d3 t) "RGB" = .ok (.imgRGB t) := by
  have hall : t.all (fun row => row.all (fun px => px.length == 3)) = true := by
    rw [List.all_eq_true]
    intro row hrow
    rw [List.all_eq_true]
    intro px hpx
    simp [(hr.2 row hrow).2 px hpx]
  simp [fromarrayMode, hall]

theorem coerce_transpose_eq (d : Z4) :
    (u8map4 d).map (fun rev => transpose120 (u8nMap3 rev))
      = d.map (fun r => transpose120 (u8map3 r)) := by
  unfold u8map4
  rw [List.map_map]
  exact List.map_congr_left (fun r _ => by simp [Function.comp_apply, u8nMap3_u8map3])

theorem procS2Channel_L {channel : String} {d : Z4} {n h w : ℕ}
    (hmode : s2Mode channel = "L") (hne : channel ≠ "20m")
    (hdR : Rect4 d n 1 h w) (hh : 2 ≤ h) (hw : 2 ≤ w) :
    procS2Channel channel (u8map4 d) =
      .ok (d.map (fun r => .imgL (sqHW (transpose120 (u8map3 r)) h w))) := by
  unfold procS2Channel
  rw [coerce_transpose_eq, if_neg hne]
  simp only [bind, Except.bind, pure, Except.pure]
  have hex := exMap_eq_ok_of (fun rev => fromarrayMode (npSqueeze3 rev) (s2Mode channel))
      (fun t => PILImage.imgL (sqHW t h w))
      (d.map (fun r => transpose120 (u8map3 r))) (fun x hx => by
    obtain ⟨r, hrm, rfl⟩ := List.mem_map.mp hx
    have hr3 : Rect3 (u8map3 r) 1 h w := rect3_u8map3 (hdR.2 r hrm)
    have htr : Rect3 (transpose120 (u8map3 r)) h w 1 := transpose120_rect hr3 (by omega)
    show fromarrayMode (npSqueeze3 (transpose120 (u8map3 r))) (s2Mode channel)
      = .ok (PILImage.imgL (sqHW (transpose120 (u8map3 r)) h w))
    rw [npSqueeze3_c1 htr hh hw, hmode]
    simp [fromarrayMode, sqHW])
  rw [hex, List.map_map]
  simp [Function.comp_def]

theorem procS2Channel_rgb {d : Z4} {n h w : ℕ}
    (hdR : Rect4 d n 3 h w) (hh : 2 ≤ h) (hw : 2 ≤ w) :
    procS2Channel "rgb" (u8map4 d) =
      .ok (d.map (fun r => .imgRGB (transpose120 (u8map3 r)))) := by
  unfold procS2Channel
  rw [coerce_transpose_eq, if_neg (by decide : ("rgb" : String) ≠ "20m")]
  simp only [bind, Except.bind, pure, Except.pure]
  have hex := exMap_eq_ok_of (fun rev => fromarrayMode (npSqueeze3 rev) (s2Mode "rgb"))
      (fun t => PILImage.imgRGB t)
      (d.map (fun r => transpose120 (u8map3 r))) (fun x hx => by
    obtain ⟨r, hrm, rfl⟩ := List.mem_map.mp hx
    have hr3 : Rect3 (u8map3 r) 3 h w := rect3_u8map3 (hdR.2 r hrm)
    have htr : Rect3 (transpose120 (u8map3 r)) h w 3 := transpose120_rect hr3 (by omega)
    show fromarrayMode (npSqueeze3 (transpose120 (u8map3 r))) (s2Mode "rgb")
      = .ok (PILImage.imgRGB (transpose120 (u8map3 r)))
    rw [npSqueeze3_d3 htr hh hw (by omega)]
    exact fromarrayMode_rgb_ok htr)
  rw [hex, List.map_map]
  simp [Function.comp_def]

theorem procS2Channel_20m {d : Z4} {n c h w : ℕ}
    (hdR : Rect4 d n c h w) (hc : 5 ≤ c) (hh : 2 ≤ h) (hw : 2 ≤ w) :
    procS2Channel "20m" (u8map4 d) =
      .ok (d.map (fun r => .imgRGB (pick024 (transpose120 (u8map3 r))))) := by
  unfold procS2Channel
  rw [coerce_transpose_eq, if_pos rfl]
  have hsel : sel024 (d.map (fun r => transpose120 (u8map3 r)))
      = .ok ((d.map (fun r => transpose120 (u8map3 r))).map pick024) := by
    refine @sel024_ok _ h w c (fun rev hrev => ?_) hc
    obtain ⟨r, hrm, rfl⟩ := List.mem_map.mp hrev
    exact transpose120_rect (rect3_u8map3 (hdR.2 r hrm)) (by omega)
  rw [hsel]
  simp only [bind, Except.bind, pure, Except.pure, List.map_map]
  have := exMap_eq_ok_of (fun rev => fromarrayMode (npSqueeze3 rev) (s2Mode "20m"))
      (fun rev => PILImage.imgRGB rev)
      (d.map (pick024 ∘ fun r => transpose120 (u8map3 r))) (fun x hx => ?_)
  · rw [this, List.map_map]
    simp [Function.comp_def]
  · obtain ⟨r, hrm, rfl⟩ := List.mem_map.mp hx
    have hr3 : Rect3 (transpose120 (u8map3 r)) h w c :=
      transpose120_rect (rect3_u8map3 (hdR.2 r hrm)) (by omega)
    have hp : Rect3 (pick024 (transpose120 (u8map3 r))) h w 3 := rect3_pick024 hr3
    simp only [Function.comp_apply]
    rw [npSqueeze3_d3 hp hh hw (by omega)]
    exact fromarrayMode_rgb_ok hp

theorem run_neon (rs : List (String × Z4)) (meta : JVal) (m : List (String × JVal))
    (rgb chm one : Z4) (bs : List JVal) (n1 h1 w1 n2 c2 h2 w2 : ℕ)
    (hm : parseMeta meta = .ok (.jobj m))
    (hall : ∀ kv ∈ rs, isRect4 kv.2 = true)
    (hrgb : dget rs "rgb" = .ok rgb) (hrgbR : Rect4 rgb n1 3 h1 w1)
    (hchm : dget rs "chm" = .ok chm) (hchmR : Rect4 chm n2 c2 h2 w2) (hc2 : 1 ≤ c2)
    (hone : dget rs "1m" = .ok one)
    (hbs : dget m "bounds" = .ok (.jarr bs)) (hbe : bs.length % 2 = 0) :
    item_to_images "neon" ⟨rs, meta⟩ = .ok
      ⟨dset (dset (dset (toArrFields (rs.map (fun kv => (kv.1, u8map4 kv.2)))) "rgb"
            (.imgs ((u8map4 rgb).map (fun im => .imgRGB (transpose120 im)))))
          "chm" (.imgs ((u8map4 chm).map (fun im => .imgL (im.getD 0 [])))))
        "1m" (.imgs ((u8map4 one).map (fun im => .imgRGB (neonPseudoRGB im)))),
       .jobj (dset (dset (dset m "bounds" (.jarr (swapPairsSpec bs))) "epsg"
          (.jstr "EPSG:4326")) "count" (.jnum (rgb.length : ℤ)))⟩ := by
  have hfields := coerce_fields_ok rs hall
  have hfr : dget (rs.map (fun kv => (kv.1, u8map4 kv.2))) "rgb" = .ok (u8map4 rgb) := by
    rw [dget_map_val, hrgb]; rfl
  have hfc : dget (rs.map (fun kv => (kv.1, u8map4 kv.2))) "chm" = .ok (u8map4 chm) := by
    rw [dget_map_val, hchm]; rfl
  have hfo : dget (rs.map (fun kv => (kv.1, u8map4 kv.2))) "1m" = .ok (u8map4 one) := by
    rw [dget_map_val, hone]; rfl
  have hrgbs : exMap (fun im => fromarray3 (transpose120 im)) (u8map4 rgb)
      = .ok ((u8map4 rgb).map (fun im => .imgRGB (transpose120 im))) := by
    refine exMap_eq_ok_of _ _ _ (fun r hr2 => ?_)
    have hr3 : Rect3 r 3 h1 w1 := (rect4_u8map4 hrgbR).2 r hr2
    exact fromarray3_ok (transpose120_rect hr3 (by omega))
  have hchms : exMap (fun im => (firstChannel im).map PILImage.imgL) (u8map4 chm)
      = .ok ((u8map4 chm).map (fun im => .imgL (im.getD 0 []))) := by
    refine exMap_eq_ok_of _ _ _ (fun im him => ?_)
    have hr3 : Rect3 im c2 h2 w2 := (rect4_u8map4 hchmR).2 im him
    cases im with
    | nil => exact absurd hr3.1 (by simp; omega)
    | cons x xs => simp [firstChannel, Except.map]
  have hones : exMap (fun im => fromarray3 (neonPseudoRGB im)) (u8map4 one)
      = .ok ((u8map4 one).map (fun im => .imgRGB (neonPseudoRGB im))) :=
    exMap_eq_ok_of _ _ _ (fun im _ => fromarray3_neonPseudoRGB im)
  have hcnt : ((u8map4 rgb).map (fun im => PILImage.imgRGB (transpose120 im))).length
      = rgb.length := by simp [u8map4]
  have hsw := swapPairs_even bs hbe
  simp only [item_to_images, dispatchBranch, hm, hfields, procNeon, hfr, hfc, hfo,
    hrgbs, hchms, hones, metaUpdate, jget, jset, asJArr, hbs, hsw,
    bind, Except.bind, pure, Except.pure, hcnt]
  simp [jset, jget, asJArr, hbs, hsw, bind, Except.bind, u8map4]

theorem parseMetaFields_s2 (m : List (String × JVal)) (xs1 xs2 xs3 : List JVal)
    (hsa : dget m "solarAngles" = .ok (.jarr xs1))
    (hta : dget m "tileGeometry" = .ok (.jarr xs2))
    (hva : dget m "viewIncidenceAngles" = .ok (.jarr xs3))
    (hj1 : ∀ x ∈ xs1, json_loads x = .ok (junwrap x))
    (hj2 : ∀ x ∈ xs2, json_loads x = .ok (junwrap x))
    (hj3 : ∀ x ∈ xs3, json_loads x = .ok (junwrap x)) :
    parseMetaFields ["solarAngles", "tileGeometry", "viewIncidenceAngles"] (.jobj m)
      = .ok (.jobj (dset (dset (dset m "solarAngles" (.jarr (xs1.map junwrap)))
          "tileGeometry" (.jarr (xs2.map junwrap)))
          "viewIncidenceAngles" (.jarr (xs3.map junwrap)))) := by
  have he1 := exMap_eq_ok_of json_loads junwrap xs1 hj1
  have he2 := exMap_eq_ok_of json_loads junwrap xs2 hj2
  have he3 := exMap_eq_ok_of json_loads junwrap xs3 hj3
  have hd2 : dget (dset m "solarAngles" (.jarr (xs1.map junwrap))) "tileGeometry"
      = .ok (.jarr xs2) := by
    rw [dget_dset_ne _ _ _ _ (by decide)]; exact hta
  have hd3 : dget (dset (dset m "solarAngles" (.jarr (xs1.map junwrap))) "tileGeometry"
      (.jarr (xs2.map junwrap))) "viewIncidenceAngles" = .ok (.jarr xs3) := by
    rw [dget_dset_ne _ _ _ _ (by decide), dget_dset_ne _ _ _ _ (by decide)]; exact hva
  simp [parseMetaFields, jget, jset, asJArr, hsa, he1, hd2, he2, hd3, he3,
    bind, Except.bind, pure, Except.pure]

theorem run_sentinel2 (rs : List (String × Z4)) (meta : JVal) (m : List (String × JVal))
    (d10 d20 drgb dscl : Z4) (xs1 xs2 xs3 : List JVal)
    (n10 h10 w10 n20 c20 h20 w20 nr hr1 wr1 ns hs ws : ℕ)
    (hm : parseMeta meta = .ok (.jobj m))
    (hall : ∀ kv ∈ rs, isRect4 kv.2 = true)
    (hd10 : dget rs "10m" = .ok d10) (h10R : Rect4 d10 n10 1 h10 w10)
    (hh10 : 2 ≤ h10) (hw10 : 2 ≤ w10)
    (hd20 : dget rs "20m" = .ok d20) (h20R : Rect4 d20 n20 c20 h20 w20)
    (hc20 : 5 ≤ c20) (hh20 : 2 ≤ h20) (hw20 : 2 ≤ w20)
    (hdr : dget rs "rgb" = .ok drgb) (hrR : Rect4 drgb nr 3 hr1 wr1)
    (hhr : 2 ≤ hr1) (hwr : 2 ≤ wr1)
    (hds : dget rs "scl" = .ok dscl) (hsR : Rect4 dscl ns 1 hs ws)
    (hhs : 2 ≤ hs) (hws : 2 ≤ ws)
    (hsa : dget m "solarAngles" = .ok (.jarr xs1))
    (hta : dget m "tileGeometry" = .ok (.jarr xs2))
    (hva : dget m "viewIncidenceAngles" = .ok (.jarr xs3))
    (hj1 : ∀ x ∈ xs1, json_loads x = .ok (junwrap x))
    (hj2 : ∀ x ∈ xs2, json_loads x = .ok (junwrap x))
    (hj3 : ∀ x ∈ xs3, json_loads x = .ok (junwrap x)) :
    item_to_images "sentinel_2" ⟨rs, meta⟩ = .ok
      ⟨dset (dset (dset (dset (toArrFields (rs.map (fun kv => (kv.1, u8map4 kv.2)))) "10m"
            (.imgs (d10.map (fun r => .imgL (sqHW (transpose120 (u8map3 r)) h10 w10)))))
          "20m" (.imgs (d20.map (fun r => .imgRGB (pick024 (transpose120 (u8map3 r)))))))
          "rgb" (.imgs (drgb.map (fun r => .imgRGB (transpose120 (u8map3 r))))))
          "scl" (.imgs (dscl.map (fun r => .imgL (sqHW (transpose120 (u8map3 r)) hs ws)))),
       .jobj (dset (dset (dset (dset m "solarAngles" (.jarr (xs1.map junwrap)))
          "tileGeometry" (.jarr (xs2.map junwrap)))
          "viewIncidenceAngles" (.jarr (xs3.map junwrap))) "count"
          (.jnum (dscl.length : ℤ)))⟩ := by
  have hfields := coerce_fields_ok rs hall
  have hf10 : dget (rs.map (fun kv => (kv.1, u8map4 kv.2))) "10m" = .ok (u8map4 d10) := by
    rw [dget_map_val, hd10]; rfl
  have hf20 : dget (rs.map (fun kv => (kv.1, u8map4 kv.2))) "20m" = .ok (u8map4 d20) := by
    rw [dget_map_val, hd20]; rfl
  have hfrgb : dget (rs.map (fun kv => (kv.1, u8map4 kv.2))) "rgb" = .ok (u8map4 drgb) := by
    rw [dget_map_val, hdr]; rfl
  have hfscl : dget (rs.map (fun kv => (kv.1, u8map4 kv.2))) "scl" = .ok (u8map4 dscl) := by
    rw [dget_map_val, hds]; rfl
  have hc10 := procS2Channel_L (show s2Mode "10m" = "L" by decide)
    (show ("10m" : String) ≠ "20m" by decide) h10R hh10 hw10
  have hc20b := procS2Channel_20m h20R hc20 hh20 hw20
  have hcrgb := procS2Channel_rgb hrR hhr hwr
  have hcscl := procS2Channel_L (show s2Mode "scl" = "L" by decide)
    (show ("scl" : String) ≠ "20m" by decide) hsR hhs hws
  have hpm := parseMetaFields_s2 m xs1 xs2 xs3 hsa hta hva hj1 hj2 hj3
  have hlen : (u8map4 dscl).length = dscl.length := by simp [u8map4]
  simp only [item_to_images, dispatchBranch, hm, hfields, procSentinel2, hf10, hf20,
    hfrgb, hfscl, hc10, hc20b, hcrgb, hcscl, metaUpdate, hpm, jset, hlen,
    bind, Except.bind, pure, Except.pure]
  simp [jset, u8map4]

/- Validity of an input record per subset: the metadata parses to a
mapping with the fields the branch reads, every raster field is a
rectangular array (as np.asarray requires), and the fields the branch
processes have the channel counts and extents it assumes. -/

/-- A well-formed satellogic record. -/
def ValidSatellogic (item : Item) : Prop :=
  (∃ m, parseMeta item.metadata = .ok (.jobj m)) ∧
  (∀ kv ∈ item.rasters, isRect4 kv.2 = true) ∧
  (∃ rgb n1 h1 w1, dget item.rasters "rgb" = .ok rgb ∧ Rect4 rgb n1 3 h1 w1) ∧
  (∃ one n2 c2 h2 w2, dget item.rasters "1m" = .ok one ∧ Rect4 one n2 c2 h2 w2 ∧ 1 ≤ c2)

/-- A well-formed sentinel_1 record: two polarization channels. -/
def ValidSentinel1 (item : Item) : Prop :=
  (∃ m, parseMeta item.metadata = .ok (.jobj m)) ∧
  (∀ kv ∈ item.rasters, isRect4 kv.2 = true) ∧
  (∃ d n h w, dget item.rasters "10m" = .ok d ∧ Rect4 d n 2 h w)

/-- A well-formed sentinel_2 record: the three nested metadata fields are
lists of JSON strings, the single-channel bands have extents of at least
two (so squeeze drops exactly the channel axis), the 20m band has at
least five channels. -/
def ValidSentinel2 (item : Item) : Prop :=
  (∃ m, parseMeta item.metadata = .ok (.jobj m) ∧
    (∃ xs, dget m "solarAngles" = .ok (.jarr xs) ∧ ∀ x ∈ xs, ∃ v, x = JVal.jenc v) ∧
    (∃ xs, dget m "tileGeometry" = .ok (.jarr xs) ∧ ∀ x ∈ xs, ∃ v, x = JVal.jenc v) ∧
    (∃ xs, dget m "viewIncidenceAngles" = .ok (.jarr xs) ∧ ∀ x ∈ xs, ∃ v, x = JVal.jenc v)) ∧
  (∀ kv ∈ item.rasters, isRect4 kv.2 = true) ∧
  (∃ d n h w, dget item.rasters "10m" = .ok d ∧ Rect4 d n 1 h w ∧ 2 ≤ h ∧ 2 ≤ w) ∧
  (∃ d n c h w, dget item.rasters "20m" = .ok d ∧ Rect4 d n c h w ∧ 5 ≤ c ∧ 2 ≤ h ∧ 2 ≤ w) ∧
  (∃ d n h w, dget item.rasters "rgb" = .ok d ∧ Rect4 d n 3 h w ∧ 2 ≤ h ∧ 2 ≤ w) ∧
  (∃ d n h w, dget item.rasters "scl" = .ok d ∧ Rect4 d n 1 h w ∧ 2 ≤ h ∧ 2 ≤ w)

/-- A well-formed neon record: an even-length bounds list and at least
248 spectral bands, so each of the three band groups is nonempty. -/
def ValidNeon (item : Item) : Prop :=
  (∃ m, parseMeta item.metadata = .ok (.jobj m) ∧
    ∃ bs, dget m "bounds" = .ok (.jarr bs) ∧ bs.length % 2 = 0) ∧
  (∀ kv ∈ item.rasters, isRect4 kv.2 = true) ∧
  (∃ rgb n h w, dget item.rasters "rgb" = .ok rgb ∧ Rect4 rgb n 3 h w) ∧
  (∃ chm n c h w, dget item.rasters "chm" = .ok chm ∧ Rect4 chm n c h w ∧ 1 ≤ c) ∧
  (∃ one n b h w, dget item.rasters "1m" = .ok one ∧ Rect4 one n b h w ∧ 248 ≤ b)

/-- Validity of a record for a given subset name. -/
def ValidItem (subset : String) (item : Item) : Prop :=
  if subset = "satellogic" then ValidSatellogic item
  else if subset = "sentinel_1" then ValidSentinel1 item
  else if subset = "sentinel_2" then ValidSentinel2 item
  else if subset = "neon" then ValidNeon item
  else False

/-- The raster field whose revisit count the branch stores into
metadata.count: 1m for satellogic (line 113), 10m for sentinel_1 (line
131), scl for sentinel_2 (the last channel of the loop, line 135), rgb
for neon (line 165). -/
def primaryField (subset : String) : String :=
  if subset = "satellogic" then "1m"
  else if subset = "sentinel_1" then "10m"
  else if subset = "sentinel_2" then "scl"
  else "rgb"

/-- Number of revisits of one raster field of a record. -/
def revisitCount (item : Item) (f : String) : ℕ :=
  match dget item.rasters f with
  | .ok d => d.length
  | .error _ => 0

/-- The raster fields the subset's branch converts. -/
def subsetRasterFields (subset : String) : List String :=
  if subset = "satellogic" then ["rgb", "1m"]
  else if subset = "sentinel_1" then ["10m"]
  else if subset = "sentinel_2" then ["10m", "20m", "rgb", "scl"]
  else ["rgb", "chm", "1m"]

/-- All listed raster fields hold exactly n revisits. -/
def UniformRevisits (item : Item) (fs : List String) (n : ℕ) : Prop :=
  ∀ f ∈ fs, ∃ d, dget item.rasters f = .ok d ∧ d.length = n

/-- Shared engine for the count claims: on every valid record the
stored count is the revisit count of the subset's primary field. -/
theorem count_primary_of_valid (subset : String) (item : Item)
    (hv : ValidItem subset item) :
    ∃ out, item_to_images subset item = .ok out ∧
      jget out.metadata "count" = .ok (.jnum ((revisitCount item (primaryField subset) : ℕ) : ℤ)) := by
  by_cases h1 : subset = "satellogic"
  · subst h1
    rw [ValidItem, if_pos rfl] at hv
    obtain ⟨⟨m, hm⟩, hall, ⟨rgb, n1, hh1, w1, hrgb, hrgbR⟩,
      ⟨one, n2, c2, h2, w2, hone, honeR, hc2⟩⟩ := hv
    refine ⟨_, run_satellogic item.rasters item.metadata m rgb one n1 hh1 w1 n2 c2 h2 w2
      hm hall hrgb hrgbR hone honeR hc2, ?_⟩
    simp [jget, dget_dset_self, revisitCount, primaryField, hone]
  by_cases h2 : subset = "sentinel_1"
  · subst h2
    rw [ValidItem, if_neg (by decide), if_pos rfl] at hv
    obtain ⟨⟨m, hm⟩, hall, ⟨d, n, h, w, hd, hdR⟩⟩ := hv
    refine ⟨_, run_sentinel1 item.rasters item.metadata m d n h w hm hall hd hdR, ?_⟩
    simp [jget, dget_dset_self, revisitCount, primaryField, hd]
  by_cases h3 : subset = "sentinel_2"
  · subst h3
    rw [ValidItem, if_neg (by decide), if_neg (by decide), if_pos rfl] at hv
    obtain ⟨⟨m, hm, ⟨xs1, hsa, he1⟩, ⟨xs2, hta, he2⟩, ⟨xs3, hva, he3⟩⟩, hall,
      ⟨d10, n10, h10, w10, hd10, h10R, hh10, hw10⟩,
      ⟨d20, n20, c20, h20, w20, hd20, h20R, hc20, hh20, hw20⟩,
      ⟨drgb, nr, hr1, wr1, hdr, hrR, hhr, hwr⟩,
      ⟨dscl, ns, hs, ws, hds, hsR, hhs, hws⟩⟩ := hv
    have hj1 : ∀ x ∈ xs1, json_loads x = .ok (junwrap x) := fun x hx => by
      obtain ⟨v, rfl⟩ := he1 x hx; rfl
    have hj2 : ∀ x ∈ xs2, json_loads x = .ok (junwrap x) := fun x hx => by
      obtain ⟨v, rfl⟩ := he2 x hx; rfl
    have hj3 : ∀ x ∈ xs3, json_loads x = .ok (junwrap x) := fun x hx => by
      obtain ⟨v, rfl⟩ := he3 x hx; rfl
    refine ⟨_, run_sentinel2 item.rasters item.metadata m d10 d20 drgb dscl xs1 xs2 xs3
      n10 h10 w10 n20 c20 h20 w20 nr hr1 wr1 ns hs ws hm hall
      hd10 h10R hh10 hw10 hd20 h20R hc20 hh20 hw20 hdr hrR hhr hwr hds hsR hhs hws
      hsa hta hva hj1 hj2 hj3, ?_⟩
    simp [jget, dget_dset_self, revisitCount, primaryField, hds]
  by_cases h4 : subset = "neon"
  · subst h4
    rw [ValidItem, if_neg (by decide), if_neg (by decide), if_neg (by decide),
      if_pos rfl] at hv
    obtain ⟨⟨m, hm, ⟨bs, hbs, hbe⟩⟩, hall, ⟨rgb, n1, hh1, w1, hrgb, hrgbR⟩,
      ⟨chm, n2, c2, h2, w2, hchm, hchmR, hc2⟩, ⟨one, n3, b3, h3, w3, hone, honeR, hb3⟩⟩ := hv
    refine ⟨_, run_neon item.rasters item.metadata m rgb chm one bs n1 hh1 w1 n2 c2 h2 w2
      hm hall hrgb hrgbR hchm hchmR hc2 hone hbs hbe, ?_⟩
    simp [jget, dget_dset_self, revisitCount, primaryField, hrgb]
  · rw [ValidItem, if_neg h1, if_neg h2, if_neg h3, if_neg h4] at hv
    exact absurd hv (by simp)

/-- C1: for every valid record of any of the four subsets whose raster
fields all hold the same number n >= 1 of revisits, the returned record
has metadata.count equal to n, the revisit count of the subset's primary
raster field. -/
theorem C1_count_equals_revisits (subset : String) (item : Item) (n : ℕ)
    (hv : ValidItem subset item) (hn : 1 ≤ n)
    (hu : UniformRevisits item (subsetRasterFields subset) n) :
    revisitCount item (primaryField subset) = n ∧
    ∃ out, item_to_images subset item = .ok out ∧
      jget out.metadata "count" = .ok (.jnum (n : ℤ)) := by
  have hp : primaryField subset ∈ subsetRasterFields subset := by
    unfold primaryField subsetRasterFields
    by_cases h1 : subset = "satellogic"
    · simp [h1]
    by_cases h2 : subset = "sentinel_1"
    · simp [h1, h2]
    by_cases h3 : subset = "sentinel_2"
    · simp [h1, h2, h3]
    · simp [h1, h2, h3]
  obtain ⟨d, hd, hdn⟩ := hu (primaryField subset) hp
  have hcnt : revisitCount item (primaryField subset) = n := by
    rw [revisitCount, hd]
    exact hdn
  obtain ⟨out, hout, hcount⟩ := count_primary_of_valid subset item hv
  exact ⟨hcnt, out, hout, by rw [hcount, hcnt]⟩

/-- C10: for every valid record, the field whose revisit count
item_to_images records into metadata.count is subset-specific: "1m" for
satellogic, "10m" for sentinel_1, "scl" for sentinel_2 (the last channel
of the fixed processing order ["10m", "20m", "rgb", "scl"]), and "rgb"
for neon; when the raster fields have differing revisit counts,
metadata.count equals that one field's revisit count only. -/
theorem C10_count_field_is_subset_specific (subset : String) (item : Item)
    (hv : ValidItem subset item) :
    primaryField "satellogic" = "1m" ∧ primaryField "sentinel_1" = "10m" ∧
    primaryField "sentinel_2" = "scl" ∧ primaryField "neon" = "rgb" ∧
    ∃ out, item_to_images subset item = .ok out ∧
      jget out.metadata "count"
        = .ok (.jnum ((revisitCount item (primaryField subset) : ℕ) : ℤ)) :=
  ⟨rfl, rfl, rfl, rfl, count_primary_of_valid subset item hv⟩

/- Pointwise access lemmas. -/

theorem map_getD {α β : Type} (f : α → β) (l : List α) (d : β) (d2 : α) (i : ℕ)
    (hi : i < l.length) : (l.map f).getD i d = f (l.getD i d2) := by
  rw [List.getD_eq_getElem?_getD, List.getElem?_map, List.getElem?_eq_getElem hi,
    List.getD_eq_getElem?_getD, List.getElem?_eq_getElem hi]
  rfl

theorem getD_append_self {α : Type} (l : List α) (x d : α) :
    (l ++ [x]).getD l.length d = x := by
  rw [List.getD_eq_getElem?_getD, List.getElem?_append_right (le_refl _)]
  simp

theorem rect3_plane {α : Type} {t : List (List (List α))} {c h w k : ℕ}
    (hr : Rect3 t c h w) (hk : k < c) : Rect2 (t.getD k []) h w := by
  have hk2 : k < t.length := by rw [hr.1]; exact hk
  have hmem : t.getD k [] ∈ t := by
    rw [List.getD_eq_getElem?_getD, List.getElem?_eq_getElem hk2]
    exact List.getElem_mem hk2
  exact hr.2 _ hmem

theorem zipWith2_at (f : ℕ → ℕ → ℕ) (c0 c1 : N2) (h w i j : ℕ)
    (h0 : Rect2 c0 h w) (h1 : Rect2 c1 h w) (hi : i < h) (hj : j < w) :
    ((List.zipWith (fun r0 r1 => List.zipWith f r0 r1) c0 c1).getD i []).getD j 0
      = f ((c0.getD i []).getD j 0) ((c1.getD i []).getD j 0) := by
  have hi0 : i < c0.length := by rw [h0.1]; exact hi
  have hi1 : i < c1.length := by rw [h1.1]; exact hi
  have hiz : i < (List.zipWith (fun r0 r1 => List.zipWith f r0 r1) c0 c1).length := by
    rw [List.length_zipWith]; omega
  have hj0 : j < c0[i].length := by
    rw [h0.2 _ (List.getElem_mem hi0)]; exact hj
  have hj1 : j < c1[i].length := by
    rw [h1.2 _ (List.getElem_mem hi1)]; exact hj
  have hjz : j < (List.zipWith f c0[i] c1[i]).length := by
    rw [List.length_zipWith]; omega
  have houter : (List.zipWith (fun r0 r1 => List.zipWith f r0 r1) c0 c1).getD i []
      = List.zipWith f c0[i] c1[i] := by
    rw [List.getD_eq_getElem?_getD, List.getElem?_eq_getElem hiz, List.getElem_zipWith]
    rfl
  have hrow0 : c0.getD i [] = c0[i] := by
    rw [List.getD_eq_getElem?_getD, List.getElem?_eq_getElem hi0]
    rfl
  have hrow1 : c1.getD i [] = c1[i] := by
    rw [List.getD_eq_getElem?_getD, List.getElem?_eq_getElem hi1]
    rfl
  have hinner : (List.zipWith f c0[i] c1[i]).getD j 0 = f c0[i][j] c1[i][j] := by
    rw [List.getD_eq_getElem?_getD, List.getElem?_eq_getElem hjz, List.getElem_zipWith]
    rfl
  have hv0 : (c0[i]).getD j 0 = c0[i][j] := by
    rw [List.getD_eq_getElem?_getD, List.getElem?_eq_getElem hj0]
    rfl
  have hv1 : (c1[i]).getD j 0 = c1[i][j] := by
    rw [List.getD_eq_getElem?_getD, List.getElem?_eq_getElem hj1]
    rfl
  rw [houter, hrow0, hrow1, hinner, hv0, hv1]

/- C2: the sentinel_1 synthetic channel. -/

/-- A one-revisit sentinel_1 record with channel0 = [[100]] and
channel1 = [[0]], the input pinned by the claim. -/
def itemC2 : Item := ⟨[("10m", [[[[100]], [[0]]]])], .jobj []⟩

/-- C2 counterexample: on the pinned input the appended third channel
holds 0 (the cast wraps 2560000 mod 256), while the claim predicts
min(255, round(100 / 0.01 * 256)) = 255; the coercion does not
saturate. -/
theorem C2_counterexample :
    (item_to_images "sentinel_1" itemC2).map (fun o => dget o.fields "10m")
      = .ok (.ok (.imgs [.imgRGB [[[100, 0, 0]]]]))
    ∧ min (255 : ℤ) ⌊ratioValQ 100 0⌋ = 255
    ∧ (0 : ℤ) ≠ 255 := by
  refine ⟨by decide, ?_, by decide⟩
  have h : ratioValQ 100 0 = 2560000 := by norm_num [ratioValQ]
  rw [h]
  norm_num

/-- C2 amended: for the sentinel_1 subset, for every revisit of the
"10m" field, item_to_images computes the synthetic third channel as
channel0 / (channel1 + 0.01) * 256 truncated and reduced mod 2^8 (the
8-bit coercion wraps rather than saturates) and appends it, so each
decoded revisit is the [h,w,3] transpose of the revisit with that
channel appended. -/
theorem C2_amended_third_channel_wraps (rs : List (String × Z4)) (meta : JVal)
    (m : List (String × JVal)) (d : Z4) (n h w : ℕ)
    (hm : parseMeta meta = .ok (.jobj m))
    (hall : ∀ kv ∈ rs, isRect4 kv.2 = true)
    (hd : dget rs "10m" = .ok d) (hdR : Rect4 d n 2 h w) :
    ∃ out, item_to_images "sentinel_1" ⟨rs, meta⟩ = .ok out ∧
      dget out.fields "10m" = .ok (.imgs ((u8map4 d).map
        (fun rev => .imgRGB (transpose120 (rev ++ [ratioOf rev]))))) ∧
      ∀ rev ∈ u8map4 d, ∀ i j, i < h → j < w →
        (((((ratioOf rev).getD i []).getD j 0 : ℕ) : ℤ)
          = ⌊ratioValQ (at3 rev 0 i j) (at3 rev 1 i j)⌋ % 256) := by
  refine ⟨_, run_sentinel1 rs meta m d n h w hm hall hd hdR, ?_, ?_⟩
  · exact dget_dset_self _ _ _
  · intro rev hrev i j hi hj
    have hr3 : Rect3 rev 2 h w := (rect4_u8map4 hdR).2 rev hrev
    have h0 : Rect2 (rev.getD 0 []) h w := rect3_plane hr3 (by omega)
    have h1 : Rect2 (rev.getD 1 []) h w := rect3_plane hr3 (by omega)
    have hz := zipWith2_at (fun a b => ratioVal a b) (rev.getD 0 []) (rev.getD 1 [])
      h w i j h0 h1 hi hj
    unfold ratioOf
    rw [hz]
    exact ratioVal_eq_floor _ _

theorem pick024_at {t : N3} {h w c i j : ℕ} (hr : Rect3 t h w c) (hi : i < h) (hj : j < w) :
    ((pick024 t).getD i []).getD j []
      = [((t.getD i []).getD j []).getD 0 0, ((t.getD i []).getD j []).getD 2 0,
         ((t.getD i []).getD j []).getD 4 0] := by
  have hi0 : i < t.length := by rw [hr.1]; exact hi
  have hji : j < (t.getD i []).length := by rw [(rect3_plane hr hi).1]; exact hj
  unfold pick024
  rw [map_getD _ _ [] [] i hi0, map_getD _ _ [] [] j hji]

/-- C6: for the sentinel_2 subset, every revisit of the "20m" band is
transposed to [h,w,c] and exactly channel indices 0, 2, 4 are selected,
in that order, before decoding: every pixel of the decoded 20m image is
the three-element list of the revisit's channels 0, 2 and 4 at that
position. -/
theorem C6_20m_selects_channels_024 (rs : List (String × Z4)) (meta : JVal)
    (m : List (String × JVal)) (d10 d20 drgb dscl : Z4) (xs1 xs2 xs3 : List JVal)
    (n10 h10 w10 n20 c20 h20 w20 nr hr1 wr1 ns hs ws : ℕ)
    (hm : parseMeta meta = .ok (.jobj m))
    (hall : ∀ kv ∈ rs, isRect4 kv.2 = true)
    (hd10 : dget rs "10m" = .ok d10) (h10R : Rect4 d10 n10 1 h10 w10)
    (hh10 : 2 ≤ h10) (hw10 : 2 ≤ w10)
    (hd20 : dget rs "20m" = .ok d20) (h20R : Rect4 d20 n20 c20 h20 w20)
    (hc20 : 5 ≤ c20) (hh20 : 2 ≤ h20) (hw20 : 2 ≤ w20)
    (hdr : dget rs "rgb" = .ok drgb) (hrR : Rect4 drgb nr 3 hr1 wr1)
    (hhr : 2 ≤ hr1) (hwr : 2 ≤ wr1)
    (hds : dget rs "scl" = .ok dscl) (hsR : Rect4 dscl ns 1 hs ws)
    (hhs : 2 ≤ hs) (hws : 2 ≤ ws)
    (hsa : dget m "solarAngles" = .ok (.jarr xs1))
    (hta : dget m "tileGeometry" = .ok (.jarr xs2))
    (hva : dget m "viewIncidenceAngles" = .ok (.jarr xs3))
    (hj1 : ∀ x ∈ xs1, json_loads x = .ok (junwrap x))
    (hj2 : ∀ x ∈ xs2, json_loads x = .ok (junwrap x))
    (hj3 : ∀ x ∈ xs3, json_loads x = .ok (junwrap x)) :
    ∃ out, item_to_images "sentinel_2" ⟨rs, meta⟩ = .ok out ∧
      dget out.fields "20m" = .ok (.imgs (d20.map
        (fun r => .imgRGB (pick024 (transpose120 (u8map3 r)))))) ∧
      ∀ r ∈ d20, ∀ i j, i < h20 → j < w20 →
        ((pick024 (transpose120 (u8map3 r))).getD i []).getD j []
          = [at3 (u8map3 r) 0 i j, at3 (u8map3 r) 2 i j, at3 (u8map3 r) 4 i j] := by
  refine ⟨_, run_sentinel2 rs meta m d10 d20 drgb dscl xs1 xs2 xs3
    n10 h10 w10 n20 c20 h20 w20 nr hr1 wr1 ns hs ws hm hall
    hd10 h10R hh10 hw10 hd20 h20R hc20 hh20 hw20 hdr hrR hhr hwr hds hsR hhs hws
    hsa hta hva hj1 hj2 hj3, ?_, ?_⟩
  · rw [dget_dset_ne _ _ _ _ (by decide), dget_dset_ne _ _ _ _ (by decide)]
    exact dget_dset_self _ _ _
  · intro r hrm i j hi hj
    have hr3 : Rect3 (u8map3 r) c20 h20 w20 := rect3_u8map3 (h20R.2 r hrm)
    have htr : Rect3 (transpose120 (u8map3 r)) h20 w20 c20 :=
      transpose120_rect hr3 (by omega)
    rw [pick024_at htr hi hj]
    show [at3 (transpose120 (u8map3 r)) i j 0, at3 (transpose120 (u8map3 r)) i j 2,
      at3 (transpose120 (u8map3 r)) i j 4] = _
    rw [at3_transpose120 hr3 (by omega) hi hj (by omega),
      at3_transpose120 hr3 (by omega) hi hj (by omega),
      at3_transpose120 hr3 (by omega) hi hj (by omega)]

theorem swapPairsSpec_length : ∀ (l : List JVal), (swapPairsSpec l).length = l.length
  | [] => rfl
  | [_] => rfl
  | _ :: _ :: rest => by
    simp only [swapPairsSpec, List.length_cons, swapPairsSpec_length rest]

theorem swapPairsSpec_getD : ∀ (l : List JVal) (k : ℕ), 2 * k + 1 < l.length →
    (swapPairsSpec l).getD (2 * k) .jnull = l.getD (2 * k + 1) .jnull ∧
    (swapPairsSpec l).getD (2 * k + 1) .jnull = l.getD (2 * k) .jnull
  | [], k, h => by simp at h
  | [_], k, h => by simp at h
  | a :: b :: rest, 0, _ => by simp [swapPairsSpec]
  | a :: b :: rest, (k + 1), h => by
    have ih := swapPairsSpec_getD rest k (by
      simp only [List.length_cons] at h; omega)
    have e1 : 2 * (k + 1) = 2 * k + 1 + 1 := by ring
    constructor
    · show (b :: a :: swapPairsSpec rest).getD (2 * (k + 1)) .jnull = _
      rw [e1, List.getD_cons_succ, List.getD_cons_succ, List.getD_cons_succ,
        List.getD_cons_succ]
      exact ih.1
    · show (b :: a :: swapPairsSpec rest).getD (2 * (k + 1) + 1) .jnull = _
      rw [e1, List.getD_cons_succ, List.getD_cons_succ, List.getD_cons_succ,
        List.getD_cons_succ]
      exact ih.2

/-- C7: for the neon subset, for every record whose metadata "bounds"
list has even length, item_to_images swaps each consecutive pair in
place: the resulting bounds list has the same length and holds, at
positions 2k and 2k+1, the input's elements 2k+1 and 2k. -/
theorem C7_bounds_pairs_swapped (rs : List (String × Z4)) (meta : JVal)
    (m : List (String × JVal)) (rgb chm one : Z4) (bs : List JVal)
    (n1 h1 w1 n2 c2 h2 w2 : ℕ)
    (hm : parseMeta meta = .ok (.jobj m))
    (hall : ∀ kv ∈ rs, isRect4 kv.2 = true)
    (hrgb : dget rs "rgb" = .ok rgb) (hrgbR : Rect4 rgb n1 3 h1 w1)
    (hchm : dget rs "chm" = .ok chm) (hchmR : Rect4 chm n2 c2 h2 w2) (hc2 : 1 ≤ c2)
    (hone : dget rs "1m" = .ok one)
    (hbs : dget m "bounds" = .ok (.jarr bs)) (hbe : bs.length % 2 = 0) :
    ∃ out, item_to_images "neon" ⟨rs, meta⟩ = .ok out ∧
      jget out.metadata "bounds" = .ok (.jarr (swapPairsSpec bs)) ∧
      (swapPairsSpec bs).length = bs.length ∧
      ∀ k, 2 * k + 1 < bs.length →
        (swapPairsSpec bs).getD (2 * k) .jnull = bs.getD (2 * k + 1) .jnull ∧
        (swapPairsSpec bs).getD (2 * k + 1) .jnull = bs.getD (2 * k) .jnull := by
  refine ⟨_, run_neon rs meta m rgb chm one bs n1 h1 w1 n2 c2 h2 w2
    hm hall hrgb hrgbR hchm hchmR hc2 hone hbs hbe, ?_,
    swapPairsSpec_length bs, fun k hk => swapPairsSpec_getD bs k hk⟩
  show jget (.jobj (dset (dset (dset m "bounds" (.jarr (swapPairsSpec bs))) "epsg"
    (.jstr "EPSG:4326")) "count" (.jnum (rgb.length : ℤ)))) "bounds" = _
  show dget (dset (dset (dset m "bounds" (.jarr (swapPairsSpec bs))) "epsg"
    (.jstr "EPSG:4326")) "count" (.jnum (rgb.length : ℤ))) "bounds" = _
  rw [dget_dset_ne _ _ _ _ (by decide), dget_dset_ne _ _ _ _ (by decide)]
  exact dget_dset_self _ _ _

/-- C8: for the neon subset, every revisit of the "1m" field is split
into three contiguous band groups at the literal slice boundaries 124
and 247 (one of 124 bands, one of 123, one holding the remaining
b - 247 bands), each group is averaged along the band axis into one
channel (truncated float mean, reduced mod 2^8 by the uint8 cast), and
the three channels are stacked along a new trailing axis to form a
pseudo-RGB image. -/
theorem C8_neon_1m_band_groups (rs : List (String × Z4)) (meta : JVal)
    (m : List (String × JVal)) (rgb chm one : Z4) (bs : List JVal)
    (n1 h1 w1 n2 c2 h2 w2 n3 b3 h3 w3 : ℕ)
    (hm : parseMeta meta = .ok (.jobj m))
    (hall : ∀ kv ∈ rs, isRect4 kv.2 = true)
    (hrgb : dget rs "rgb" = .ok rgb) (hrgbR : Rect4 rgb n1 3 h1 w1)
    (hchm : dget rs "chm" = .ok chm) (hchmR : Rect4 chm n2 c2 h2 w2) (hc2 : 1 ≤ c2)
    (hone : dget rs "1m" = .ok one) (honeR : Rect4 one n3 b3 h3 w3) (hb3 : 248 ≤ b3)
    (hbs : dget m "bounds" = .ok (.jarr bs)) (hbe : bs.length % 2 = 0) :
    ∃ out, item_to_images "neon" ⟨rs, meta⟩ = .ok out ∧
      dget out.fields "1m" = .ok (.imgs ((u8map4 one).map
        (fun im => .imgRGB (neonPseudoRGB im)))) ∧
      (∀ im ∈ u8map4 one,
        (im.take 124).length = 124 ∧
        ((im.drop 124).take 123).length = 123 ∧
        (im.drop 247).length = b3 - 247 ∧
        ∀ i j, i < h3 → j < w3 →
          ((neonPseudoRGB im).getD i []).getD j []
            = [bandAvgAt (im.take 124) i j, bandAvgAt ((im.drop 124).take 123) i j,
               bandAvgAt (im.drop 247) i j]) ∧
      ∀ g : N3, ∀ i j : ℕ, (bandAvgAt g i j : ℤ)
        = ⌊avgQ (g.map (fun p => (p.getD i []).getD j 0))⌋ % 256 := by
  refine ⟨_, run_neon rs meta m rgb chm one bs n1 h1 w1 n2 c2 h2 w2
    hm hall hrgb hrgbR hchm hchmR hc2 hone hbs hbe, ?_, ?_, ?_⟩
  · exact dget_dset_self _ _ _
  · intro im him
    have hr3 : Rect3 im b3 h3 w3 := (rect4_u8map4 honeR).2 im him
    refine ⟨?_, ?_, ?_, ?_⟩
    · rw [List.length_take, hr3.1]; omega
    · rw [List.length_take, List.length_drop, hr3.1]; omega
    · rw [List.length_drop, hr3.1]
    · intro i j hi hj
      have hd1 : (im.getD 0 []).length = h3 := rect3_getD_dims hr3 (by omega)
      have hd2 : ((im.getD 0 []).getD 0 []).length = w3 :=
        rect3_getD2_dims hr3 (by omega) (by omega)
      unfold neonPseudoRGB
      rw [hd1, hd2, rangeMap_getD _ _ _ _ hi, rangeMap_getD _ _ _ _ hj]
  · intro g i j
    exact avgU8_eq_floor _

/- C3: idempotence on already-normalized metadata. -/

/-- Projection of the metadata "bounds" list to plain strings, used to
compare metadata values of two runs. -/
def boundsStrs (j : JVal) : Option (List String) :=
  match jget j "bounds" with
  | .ok (.jarr xs) => some (xs.map (fun x => match x with | .jstr s => s | _ => ""))
  | _ => none

/-- A well-formed neon record whose bounds list is ["a", "b"]. -/
def itemC3 : Item := ⟨[("rgb", []), ("chm", []), ("1m", [])],
  .jobj [("bounds", .jarr [.jstr "a", .jstr "b"])]⟩

/-- C3 counterexample: running the neon conversion twice is not a no-op
on metadata. The first run swaps bounds to ["b", "a"]; feeding the
already-normalized metadata back in succeeds but swaps the pairs again,
returning bounds ["a", "b"], different metadata than the first run's. -/
theorem C3_counterexample :
    (item_to_images "neon" itemC3).map (fun o => boundsStrs o.metadata)
      = .ok (some ["b", "a"]) ∧
    ((item_to_images "neon" itemC3).bind
        (fun o => item_to_images "neon" ⟨itemC3.rasters, o.metadata⟩)).map
        (fun o => boundsStrs o.metadata)
      = .ok (some ["a", "b"]) ∧
    (some ["b", "a"] : Option (List String)) ≠ some ["a", "b"] :=
  ⟨by decide, by decide, by decide⟩

theorem jset_ok_inv {j j2 : JVal} {k : String} {v : JVal}
    (h : jset j k v = .ok j2) : ∃ mm, j = .jobj mm ∧ j2 = .jobj (dset mm k v) := by
  cases j <;> simp [jset] at h
  case jobj mm => exact ⟨mm, rfl, h.symm⟩

theorem metaUpdate_plain (subset : String) (h2 : subset ≠ "sentinel_2")
    (h3 : subset ≠ "neon") (c : ℕ) (meta : JVal) :
    metaUpdate subset c meta = jset meta "count" (.jnum (c : ℤ)) := by
  unfold metaUpdate
  rw [if_neg h2, if_neg h3]
  simp [bind, Except.bind, pure, Except.pure]

theorem idem_core (subset : String) (hne2 : subset ≠ "sentinel_2")
    (hne4 : subset ≠ "neon") (item : Item) (out1 : ItemOut)
    (h1 : item_to_images subset item = .ok out1) :
    ∃ out2, item_to_images subset ⟨item.rasters, out1.metadata⟩ = .ok out2 ∧
      out2.metadata = out1.metadata ∧ out2.fields = out1.fields := by
  unfold item_to_images at h1 ⊢
  cases hpm : parseMeta item.metadata with
  | error e => rw [hpm] at h1; exact absurd h1 (by simp [bind, Except.bind])
  | ok mv =>
  rw [hpm] at h1
  cases hfe : exMap (fun kv => (asarrayU8 kv.2).map (fun a => (kv.1, a))) item.rasters with
  | error e => rw [hfe] at h1; exact absurd h1 (by simp [bind, Except.bind])
  | ok fields =>
  rw [hfe] at h1
  simp only [bind, Except.bind] at h1
  cases hbc : dispatchBranch subset fields with
  | error e => rw [hbc] at h1; exact absurd h1 (by simp)
  | ok bc =>
  rw [hbc] at h1
  dsimp only at h1
  rw [metaUpdate_plain subset hne2 hne4] at h1
  cases hjs : jset mv "count" (.jnum (bc.2 : ℤ)) with
  | error e => rw [hjs] at h1; exact absurd h1 (by simp)
  | ok meta2 =>
  rw [hjs] at h1
  dsimp only at h1
  simp only [pure, Except.pure, Except.ok.injEq] at h1
  obtain ⟨mm, rfl, rfl⟩ := jset_ok_inv hjs
  refine ⟨⟨bc.1, .jobj (dset mm "count" (.jnum (bc.2 : ℤ)))⟩, ?_, by rw [← h1], by rw [← h1]⟩
  rw [← h1]
  rw [show parseMeta (.jobj (dset mm "count" (.jnum (bc.2 : ℤ))))
      = .ok (.jobj (dset mm "count" (.jnum (bc.2 : ℤ)))) from rfl]
  simp only [bind, Except.bind]
  rw [hbc]
  dsimp only
  rw [metaUpdate_plain subset hne2 hne4]
  simp [jset, dset_dset_same, pure, Except.pure]

theorem C3_amended_idempotent_for_plain_subsets (subset : String)
    (hs : subset = "satellogic" ∨ subset = "sentinel_1") (item : Item) (out1 : ItemOut)
    (h1 : item_to_images subset item = .ok out1) :
    ∃ out2, item_to_images subset ⟨item.rasters, out1.metadata⟩ = .ok out2 ∧
      out2.metadata = out1.metadata ∧ out2.fields = out1.fields := by
  rcases hs with rfl | rfl
  · exact idem_core "satellogic" (by decide) (by decide) item out1 h1
  · exact idem_core "sentinel_1" (by decide) (by decide) item out1 h1

/- C4: unknown subset names. -/

/-- The error of a computation, when there is one. -/
def errOf {α : Type} (x : Except PyError α) : Option PyError :=
  match x with
  | .error e => some e
  | .ok _ => none

/-- A minimal record: no raster fields, already-parsed empty metadata. -/
def itemC4 : Item := ⟨[], .jobj []⟩

/-- C4 counterexample: item_to_images on the unknown subset name
"swissimage" does not raise the dedicated unknown-subset lookup error
(the KeyError that get_nshards raises); it falls through every branch
and fails with UnboundLocalError on count, a different exception. -/
theorem C4_counterexample :
    errOf (item_to_images "swissimage" itemC4) = some (.unboundLocal "count") ∧
    get_nshards "swissimage" = .error (.keyError "swissimage") ∧
    PyError.unboundLocal "count" ≠ PyError.keyError "swissimage" :=
  ⟨by decide, by decide, by decide⟩

/-- C4 amended: for every subset name outside the static table, the
table accessors get_nshards, get_path and get_config raise the
dedicated KeyError naming the offending subset; item_to_images,
however, never consults the table: it skips every branch and raises
UnboundLocalError for the local variable count instead, once the
metadata parse and the array coercion have gone through. -/
theorem C4_amended_unknown_subset_errors (subset : String)
    (h1 : subset ≠ "satellogic") (h2 : subset ≠ "sentinel_1")
    (h3 : subset ≠ "sentinel_2") (h4 : subset ≠ "neon")
    (item : Item) (mv : JVal) (hpm : parseMeta item.metadata = .ok mv)
    (hall : ∀ kv ∈ item.rasters, isRect4 kv.2 = true) :
    get_nshards subset = .error (.keyError subset) ∧
    get_path subset = .error (.keyError subset) ∧
    get_config subset = .error (.keyError subset) ∧
    item_to_images subset item = .error (.unboundLocal "count") := by
  have e1 : ("satellogic" == subset) = false := beq_eq_false_iff_ne.mpr (Ne.symm h1)
  have e2 : ("sentinel_1" == subset) = false := beq_eq_false_iff_ne.mpr (Ne.symm h2)
  have e3 : ("sentinel_2" == subset) = false := beq_eq_false_iff_ne.mpr (Ne.symm h3)
  have e4 : ("neon" == subset) = false := beq_eq_false_iff_ne.mpr (Ne.symm h4)
  have hdg : dget sets subset = .error (.keyError subset) := by
    simp [dget, sets, List.find?, e1, e2, e3, e4]
  refine ⟨?_, ?_, ?_, ?_⟩
  · rw [get_nshards, hdg]; rfl
  · rw [get_path, hdg]; rfl
  · rw [get_config, hdg]; rfl
  · have hfe := coerce_fields_ok item.rasters hall
    have hdb : dispatchBranch subset (item.rasters.map (fun kv => (kv.1, u8map4 kv.2)))
        = .error (.unboundLocal "count") := by
      rw [dispatchBranch, if_neg h1, if_neg h2, if_neg h3, if_neg h4]
    simp only [item_to_images, hpm, hfe, hdb, bind, Except.bind]

/- C5: mutation of the caller's metadata mapping. -/

/-- Count values held by each metadata object in a store. -/
def storeCounts (store : List JVal) : List (Option ℤ) :=
  store.map (fun j => match jget j "count" with
    | .ok (.jnum n) => some n
    | _ => none)

/-- A satellogic record whose metadata is a shared mapping stored at
address 0. -/
def itemC5 : ItemRef := ⟨[("rgb", []), ("1m", [])], .ref 0⟩

/-- C5 counterexample: the caller's metadata mapping is not left
unchanged. Before the call, the shared metadata object at address 0 has
no "count" key; after a successful satellogic call the very same object
holds count = 0 — line 174 wrote through the shared reference. -/
theorem C5_counterexample :
    (item_to_images_ref "satellogic" [.jobj []] itemC5).map (fun p => storeCounts p.1)
      = .ok [some 0] ∧
    storeCounts [.jobj []] = [none] ∧
    (some (0 : ℤ) ≠ (none : Option ℤ)) :=
  ⟨by decide, by decide, by decide⟩

/-- C5 amended: item_to_images builds a fresh top-level record (the
caller's record mapping itself is not written), but the metadata
mapping is shared, not copied: when the metadata arrives as a mapping
at address a, a successful call stores the fully updated metadata back
into that same object, so the caller observes the mutation; only when
the metadata arrives as a JSON string does the caller keep its objects
unchanged, the parse having built a fresh mapping. -/
theorem C5_amended_metadata_mutated_in_place (subset : String) (store : List JVal)
    (rs : List (String × Z4)) (a : ℕ) (out : ItemOut)
    (h : item_to_images subset ⟨rs, store.getD a .jnull⟩ = .ok out) :
    item_to_images_ref subset store ⟨rs, .ref a⟩ = .ok (store.set a out.metadata, out) ∧
    ∀ s out2, item_to_images subset ⟨rs, s⟩ = .ok out2 →
      item_to_images_ref subset store ⟨rs, .strv s⟩ = .ok (store, out2) := by
  constructor
  · unfold item_to_images at h
    cases hpm : parseMeta (store.getD a .jnull) with
    | error e => rw [hpm] at h; exact absurd h (by simp [bind, Except.bind])
    | ok mv =>
    rw [hpm] at h
    cases hfe : exMap (fun kv => (asarrayU8 kv.2).map (fun a2 => (kv.1, a2))) rs with
    | error e => rw [hfe] at h; exact absurd h (by simp [bind, Except.bind])
    | ok fields =>
    rw [hfe] at h
    simp only [bind, Except.bind] at h
    cases hbc : dispatchBranch subset fields with
    | error e => rw [hbc] at h; exact absurd h (by simp)
    | ok bc =>
    rw [hbc] at h
    dsimp only at h
    cases hmu : metaUpdate subset bc.2 mv with
    | error e => rw [hmu] at h; exact absurd h (by simp)
    | ok meta2 =>
    rw [hmu] at h
    dsimp only at h
    simp only [pure, Except.pure, Except.ok.injEq] at h
    simp only [item_to_images_ref, hpm, hfe, hbc, hmu, bind, Except.bind,
      pure, Except.pure, Except.ok.injEq]
    rw [← h]
  · intro s out2 h2
    unfold item_to_images at h2
    cases hpm : parseMeta s with
    | error e => rw [hpm] at h2; exact absurd h2 (by simp [bind, Except.bind])
    | ok mv =>
    rw [hpm] at h2
    cases hfe : exMap (fun kv => (asarrayU8 kv.2).map (fun a2 => (kv.1, a2))) rs with
    | error e => rw [hfe] at h2; exact absurd h2 (by simp [bind, Except.bind])
    | ok fields =>
    rw [hfe] at h2
    simp only [bind, Except.bind] at h2
    cases hbc : dispatchBranch subset fields with
    | error e => rw [hbc] at h2; exact absurd h2 (by simp)
    | ok bc =>
    rw [hbc] at h2
    dsimp only at h2
    cases hmu : metaUpdate subset bc.2 mv with
    | error e => rw [hmu] at h2; exact absurd h2 (by simp)
    | ok meta2 =>
    rw [hmu] at h2
    dsimp only at h2
    simp only [pure, Except.pure, Except.ok.injEq] at h2
    simp only [item_to_images_ref, hpm, hfe, hbc, hmu, bind, Except.bind,
      pure, Except.pure, Except.ok.injEq]
    rw [← h2]

/- C9: shard path construction. -/

/-- The path scheme as the specification words it:
{path}/{split}-{shard:05d}-of-{nshards:05d}.parquet in general, and
{path}/{subset}-{shard//10}/{split}-{shard%10:05d}-of-00010.parquet for
the optical subset. -/
def claimShardPathSpec (subset path split : String) (nshards shard : ℕ) : String :=
  if subset = "sentinel_2" then
    path ++ "/" ++ subset ++ "-" ++ toString (shard / 10) ++ "/" ++ split ++ "-"
      ++ fmt05 (shard % 10) ++ "-of-00010.parquet"
  else
    path ++ "/" ++ split ++ "-" ++ fmt05 shard ++ "-of-" ++ fmt05 nshards ++ ".parquet"

/-- C9: for each of the four subsets and every list of shard indices,
load_dataset builds exactly the shard file paths of the claimed scheme,
with the subset's configured path segment and shard count; the
sentinel_2 directory prefix hard-coded in the source coincides with the
{subset} of the claimed two-level scheme. -/
theorem C9_shard_path_scheme (subset : String)
    (hs : subset ∈ ["satellogic", "sentinel_1", "sentinel_2", "neon"])
    (split : String) (shards : List ℕ) :
    ∃ path nshards, get_path subset = .ok path ∧ get_nshards subset = .ok nshards ∧
      load_dataset_data_files subset split shards
        = .ok (shards.map (claimShardPathSpec subset path split nshards)) := by
  have run : ∀ s2 : String, s2 ∈ (["satellogic", "sentinel_1", "sentinel_2", "neon"] : List String) →
      ∀ p : String, ∀ n : ℕ, get_path s2 = .ok p → get_nshards s2 = .ok n →
      get_config s2 = .ok (match s2 with | "neon" => "default" | s3 => s3) →
      (∀ shard : ℕ, shardPath s2 split shard = .ok (claimShardPathSpec s2 p split n shard)) →
      load_dataset_data_files s2 split shards
        = .ok (shards.map (claimShardPathSpec s2 p split n)) := by
    intro s2 _ p n _ _ hcfg hsp
    unfold load_dataset_data_files
    rw [hcfg]
    simp only [bind, Except.bind]
    exact exMap_eq_ok_of _ _ _ (fun sh _ => hsp sh)
  simp only [List.mem_cons, List.not_mem_nil, or_false] at hs
  rcases hs with rfl | rfl | rfl | rfl
  · exact ⟨"satellogic", 7863, rfl, rfl, run _ (by decide) _ _ rfl rfl rfl (fun sh => by
      unfold shardPath claimShardPathSpec
      rw [show get_nshards "satellogic" = .ok 7863 from rfl,
        show get_path "satellogic" = .ok "satellogic" from rfl]
      simp [bind, Except.bind, pure, Except.pure])⟩
  · exact ⟨"sentinel_1", 1763, rfl, rfl, run _ (by decide) _ _ rfl rfl rfl (fun sh => by
      unfold shardPath claimShardPathSpec
      rw [show get_nshards "sentinel_1" = .ok 1763 from rfl,
        show get_path "sentinel_1" = .ok "sentinel_1" from rfl]
      simp [bind, Except.bind, pure, Except.pure])⟩
  · exact ⟨"sentinel_2", 19997, rfl, rfl, run _ (by decide) _ _ rfl rfl rfl (fun sh => by
      unfold shardPath claimShardPathSpec
      rw [show get_nshards "sentinel_2" = .ok 19997 from rfl,
        show get_path "sentinel_2" = .ok "sentinel_2" from rfl]
      simp [bind, Except.bind, pure, Except.pure])⟩
  · exact ⟨"data", 607, rfl, rfl, run _ (by decide) _ _ rfl rfl rfl (fun sh => by
      unfold shardPath claimShardPathSpec
      rw [show get_nshards "neon" = .ok 607 from rfl,
        show get_path "neon" = .ok "data" from rfl]
      simp [bind, Except.bind, pure, Except.pure])⟩

/- Concrete records used by the witnesses. -/

/-- A small valid satellogic record: one revisit each of rgb (3x2x2)
and 1m (1x2x2). -/
def itemW : Item :=
  ⟨[("rgb", [[[[1, 2], [3, 4]], [[5, 6], [7, 8]], [[9, 10], [11, 12]]]]),
    ("1m", [[[[0, 5], [7, 260]]]])], .jobj []⟩

/-- A satellogic record with zero revisits, whose output is easy to
write in full. -/
def itemP : Item := ⟨[("rgb", []), ("1m", [])], .jobj []⟩

/-- The record item_to_images returns on itemP. -/
def outP : ItemOut :=
  ⟨[("rgb", FieldVal.imgs []), ("1m", FieldVal.imgs [])], .jobj [("count", .jnum 0)]⟩

/-- A small valid sentinel_2 record: one revisit per channel, 2x2
extents, channel counts 1, 5, 3, 1. -/
def itemS2W : Item :=
  ⟨[("10m", [[[[1, 1], [1, 1]]]]),
    ("20m", [[[[10, 10], [10, 10]], [[20, 20], [20, 20]], [[30, 30], [30, 30]],
      [[40, 40], [40, 40]], [[50, 50], [50, 50]]]]),
    ("rgb", [[[[1, 1], [1, 1]], [[2, 2], [2, 2]], [[3, 3], [3, 3]]]]),
    ("scl", [[[[7, 7], [7, 7]]]])],
   .jobj [("solarAngles", .jarr [.jenc (.jarr [])]),
     ("tileGeometry", .jarr []), ("viewIncidenceAngles", .jarr [])]⟩

/-- A neon 1m field with one revisit of 248 one-pixel bands. -/
def oneW : Z4 := [List.replicate 124 [[100]] ++ List.replicate 123 [[50]] ++ [[[200]]]]

/-- The 20m field of itemS2W. -/
def d20W : Z4 :=
  [[[[10, 10], [10, 10]], [[20, 20], [20, 20]], [[30, 30], [30, 30]],
    [[40, 40], [40, 40]], [[50, 50], [50, 50]]]]

theorem C1_witness :
    revisitCount itemW (primaryField "satellogic") = 1 ∧
    ∃ out, item_to_images "satellogic" itemW = .ok out ∧
      jget out.metadata "count" = .ok (.jnum (1 : ℤ)) :=
  C1_count_equals_revisits "satellogic" itemW 1
    (by
      rw [ValidItem, if_pos rfl]
      exact ⟨⟨[], rfl⟩, by decide, ⟨_, 1, 2, 2, rfl, by decide⟩,
        ⟨_, 1, 1, 2, 2, rfl, by decide, by decide⟩⟩)
    (by decide)
    (by
      intro f hf
      simp [subsetRasterFields] at hf
      rcases hf with rfl | rfl
      · exact ⟨_, rfl, rfl⟩
      · exact ⟨_, rfl, rfl⟩)

theorem C10_witness :
    primaryField "satellogic" = "1m" ∧ primaryField "sentinel_1" = "10m" ∧
    primaryField "sentinel_2" = "scl" ∧ primaryField "neon" = "rgb" ∧
    ∃ out, item_to_images "satellogic" itemW = .ok out ∧
      jget out.metadata "count"
        = .ok (.jnum ((revisitCount itemW (primaryField "satellogic") : ℕ) : ℤ)) :=
  C10_count_field_is_subset_specific "satellogic" itemW
    (by
      rw [ValidItem, if_pos rfl]
      exact ⟨⟨[], rfl⟩, by decide, ⟨_, 1, 2, 2, rfl, by decide⟩,
        ⟨_, 1, 1, 2, 2, rfl, by decide, by decide⟩⟩)

theorem C2_witness :
    ∃ out, item_to_images "sentinel_1" ⟨[("10m", [[[[100]], [[0]]]])], .jobj []⟩ = .ok out ∧
      dget out.fields "10m" = .ok (.imgs ((u8map4 [[[[100]], [[0]]]]).map
        (fun rev => .imgRGB (transpose120 (rev ++ [ratioOf rev]))))) ∧
      ∀ rev ∈ u8map4 [[[[100]], [[0]]]], ∀ i j, i < 1 → j < 1 →
        (((((ratioOf rev).getD i []).getD j 0 : ℕ) : ℤ)
          = ⌊ratioValQ (at3 rev 0 i j) (at3 rev 1 i j)⌋ % 256) :=
  C2_amended_third_channel_wraps [("10m", [[[[100]], [[0]]]])] (.jobj []) []
    [[[[100]], [[0]]]] 1 1 1 rfl (by decide) rfl (by decide)

theorem C3_witness :
    ∃ out2, item_to_images "satellogic" ⟨itemP.rasters, outP.metadata⟩ = .ok out2 ∧
      out2.metadata = outP.metadata ∧ out2.fields = outP.fields :=
  C3_amended_idempotent_for_plain_subsets "satellogic" (Or.inl rfl) itemP outP (by rfl)

theorem C4_witness :
    get_nshards "swissimage" = .error (.keyError "swissimage") ∧
    get_path "swissimage" = .error (.keyError "swissimage") ∧
    get_config "swissimage" = .error (.keyError "swissimage") ∧
    item_to_images "swissimage" itemC4 = .error (.unboundLocal "count") :=
  C4_amended_unknown_subset_errors "swissimage" (by decide) (by decide) (by decide)
    (by decide) itemC4 (.jobj []) rfl (by intro kv hkv; exact absurd hkv (by simp [itemC4]))

theorem C5_witness :
    item_to_images_ref "satellogic" [.jobj []] ⟨itemP.rasters, .ref 0⟩
      = .ok ([.jobj []].set 0 outP.metadata, outP) ∧
    ∀ s out2, item_to_images "satellogic" ⟨itemP.rasters, s⟩ = .ok out2 →
      item_to_images_ref "satellogic" [.jobj []] ⟨itemP.rasters, .strv s⟩
        = .ok ([.jobj []], out2) :=
  C5_amended_metadata_mutated_in_place "satellogic" [.jobj []] itemP.rasters 0 outP (by rfl)

theorem C6_witness :
    ∃ out, item_to_images "sentinel_2" ⟨itemS2W.rasters, itemS2W.metadata⟩ = .ok out ∧
      dget out.fields "20m" = .ok (.imgs (d20W.map
        (fun r => .imgRGB (pick024 (transpose120 (u8map3 r)))))) ∧
      ∀ r ∈ d20W, ∀ i j, i < 2 → j < 2 →
        ((pick024 (transpose120 (u8map3 r))).getD i []).getD j []
          = [at3 (u8map3 r) 0 i j, at3 (u8map3 r) 2 i j, at3 (u8map3 r) 4 i j] :=
  C6_20m_selects_channels_024 itemS2W.rasters itemS2W.metadata
    [("solarAngles", .jarr [.jenc (.jarr [])]), ("tileGeometry", .jarr []),
      ("viewIncidenceAngles", .jarr [])]
    [[[[1, 1], [1, 1]]]]
    d20W
    [[[[1, 1], [1, 1]], [[2, 2], [2, 2]], [[3, 3], [3, 3]]]]
    [[[[7, 7], [7, 7]]]]
    [.jenc (.jarr [])] [] []
    1 2 2 1 5 2 2 1 2 2 1 2 2
    rfl (by decide) rfl (by decide) (by decide) (by decide)
    rfl (by decide) (by decide) (by decide) (by decide)
    rfl (by decide) (by decide) (by decide)
    rfl (by decide) (by decide) (by decide)
    rfl rfl rfl
    (by intro x hx; simp only [List.mem_singleton] at hx; subst hx; rfl)
    (by intro x hx; simp at hx)
    (by intro x hx; simp at hx)

theorem C7_witness :
    ∃ out, item_to_images "neon" ⟨[("rgb", []), ("chm", []), ("1m", [])],
        .jobj [("bounds", .jarr [.jstr "a", .jstr "b"])]⟩ = .ok out ∧
      jget out.metadata "bounds"
        = .ok (.jarr (swapPairsSpec [.jstr "a", .jstr "b"])) ∧
      (swapPairsSpec [.jstr "a", .jstr "b"]).length = ([.jstr "a", .jstr "b"] : List JVal).length ∧
      ∀ k, 2 * k + 1 < ([.jstr "a", .jstr "b"] : List JVal).length →
        (swapPairsSpec [.jstr "a", .jstr "b"]).getD (2 * k) .jnull
            = ([.jstr "a", .jstr "b"] : List JVal).getD (2 * k + 1) .jnull ∧
        (swapPairsSpec [.jstr "a", .jstr "b"]).getD (2 * k + 1) .jnull
            = ([.jstr "a", .jstr "b"] : List JVal).getD (2 * k) .jnull :=
  C7_bounds_pairs_swapped [("rgb", []), ("chm", []), ("1m", [])]
    (.jobj [("bounds", .jarr [.jstr "a", .jstr "b"])])
    [("bounds", .jarr [.jstr "a", .jstr "b"])]
    [] [] [] [.jstr "a", .jstr "b"] 0 1 1 0 1 1 1
    rfl (by decide) rfl (by decide) rfl (by decide) (by decide) rfl rfl (by decide)

set_option maxRecDepth 8000 in
theorem C8_witness :
    ∃ out, item_to_images "neon" ⟨[("rgb", []), ("chm", []), ("1m", oneW)],
        .jobj [("bounds", .jarr [])]⟩ = .ok out ∧
      dget out.fields "1m" = .ok (.imgs ((u8map4 oneW).map
        (fun im => .imgRGB (neonPseudoRGB im)))) ∧
      (∀ im ∈ u8map4 oneW,
        (im.take 124).length = 124 ∧
        ((im.drop 124).take 123).length = 123 ∧
        (im.drop 247).length = 248 - 247 ∧
        ∀ i j, i < 1 → j < 1 →
          ((neonPseudoRGB im).getD i []).getD j []
            = [bandAvgAt (im.take 124) i j, bandAvgAt ((im.drop 124).take 123) i j,
               bandAvgAt (im.drop 247) i j]) ∧
      ∀ g : N3, ∀ i j : ℕ, (bandAvgAt g i j : ℤ)
        = ⌊avgQ (g.map (fun p => (p.getD i []).getD j 0))⌋ % 256 :=
  C8_neon_1m_band_groups [("rgb", []), ("chm", []), ("1m", oneW)]
    (.jobj [("bounds", .jarr [])]) [("bounds", .jarr [])]
    [] [] oneW [] 0 1 1 0 1 1 1 1 248 1 1
    rfl (by decide) rfl (by decide) rfl (by decide) (by decide) rfl (by decide)
    (by decide) rfl (by decide)

theorem C9_witness :
    ∃ path nshards, get_path "satellogic" = .ok path ∧
      get_nshards "satellogic" = .ok nshards ∧
      load_dataset_data_files "satellogic" "train" [0, 123456]
        = .ok (([0, 123456] : List ℕ).map
            (claimShardPathSpec "satellogic" path "train" nshards)) :=
  C9_shard_path_scheme "satellogic" (by decide) "train" [0, 123456]
